import Mathlib

/-!
# Verification of the Collaborative LLM Refinement orchestration core

Shallow embedding of the refinement orchestration engine of the
Collaborative-LLM-Refinement repository:

* `backend/llm-client.js`     — model registry, generation dispatch, length guard
* `backend/prompt-refiner.js` — clarification-question parsing & answer validation
* the orchestrator module     — session lifecycle, handoff strategies, the
  initial → (critique/improve)^N → final-review pipeline, usage tracking

External effects are modelled at the boundary the code itself draws:

* the external text-generation capability is an oracle
  `Gen : Nat → String → String → Option String` (call index, model id, prompt ↦
  generated text, `none` = provider failure);
* wall-clock timestamps (`Date.now()`) and console logging are omitted;
* `progressCallback` delivery is observational only and is not part of state;
* the `uuidv4()` session identifier is taken as an input parameter.

JS-specific semantics that matter are reproduced explicitly: `x || y` treats
`undefined`/`null`/`""` as falsy (`jsOrStr`, `jsOrOpt`), `Map.set` updates in
place or appends, and `Array.prototype.sort` (ES2019+, stable) by score
descending is realised as "first element of maximal score".
-/

/-- JS `a || b` where `a` is a possibly-`undefined`/`null` string:
`undefined`, `null` and `""` are falsy. -/
def jsOrStr (a : Option String) (b : String) : String :=
  match a with
  | some s => if s = "" then b else s
  | none => b

/-- JS `a || b` for two possibly-`undefined`/`null` strings. -/
def jsOrOpt (a b : Option String) : Option String :=
  match a with
  | some s => if s = "" then b else some s
  | none => b

/-- JS template-literal coercion of a nullable string: `null` prints "null". -/
def jsStr (a : Option String) : String :=
  match a with
  | some s => s
  | none => "null"

/-- Whitespace characters recognised by `trim` / `\s` (the ASCII subset;
the source only ever feeds ASCII whitespace through these paths). -/
def jsIsSpace (c : Char) : Bool :=
  c = ' ' || c = '\t' || c = '\n' || c = '\r'

/-- JS `String.prototype.trim` on the character-list representation. -/
def jsTrimList (cs : List Char) : List Char :=
  ((cs.dropWhile jsIsSpace).reverse.dropWhile jsIsSpace).reverse

/-- JS `String.prototype.trim`. -/
def jsTrim (s : String) : String :=
  String.mk (jsTrimList s.data)

/-- JS `String.prototype.startsWith`. -/
def jsStartsWith (s pre : String) : Bool :=
  pre.data.isPrefixOf s.data

/-- Association-list lookup, modelling JS object / `Map` indexing
(keys are unique in every map the source constructs). -/
def alGet {α : Type} : List (String × α) → String → Option α
  | [], _ => none
  | p :: rest, k => if p.1 = k then some p.2 else alGet rest k

/-- JS `Map.set`: overwrite in place if the key exists, else append. -/
def alSet {α : Type} : List (String × α) → String → α → List (String × α)
  | [], k, v => [(k, v)]
  | p :: rest, k, v => if p.1 = k then (k, v) :: rest else p :: alSet rest k v

/-- JS `Map.delete`. -/
def alDelete {α : Type} (m : List (String × α)) (k : String) :
    List (String × α) :=
  m.filter (fun p => ¬ p.1 = k)

/-! ## Model registry and LLM client (`backend/llm-client.js`) -/

/-- One entry of `LLMClient.modelConfig`.  The constant `temperature: 0.7`
is configuration forwarded verbatim to the provider and never branched on;
it is omitted from the embedding. -/
structure ModelConfig where
  provider : String
  modelName : String
  maxTokens : Nat
  tier : String
  capabilities : List String
deriving Repr, DecidableEq

/-- `this.modelConfig` from the `LLMClient` constructor, in JS object
insertion order. -/
def modelConfig : List (String × ModelConfig) :=
  [ ("claude-sonnet-4",
      ⟨"anthropic", "claude-sonnet-4-20250514", 60000, "premium",
        ["comprehensive", "detailed", "analytical", "thoughtful", "advanced"]⟩),
    ("gpt-4.1",
      ⟨"openai", "gpt-4.1-2025-04-14", 32000, "premium",
        ["advanced", "nuanced", "precise", "technical", "comprehensive"]⟩),
    ("gpt-4o",
      ⟨"openai", "gpt-4o", 8000, "advanced",
        ["creative", "analytical", "technical", "fast"]⟩),
    ("gpt-4-turbo",
      ⟨"openai", "gpt-4-turbo-preview", 4000, "advanced",
        ["analytical", "comprehensive", "reliable", "fast"]⟩),
    ("claude-3-5-sonnet",
      ⟨"anthropic", "claude-3-5-sonnet-20241022", 6000, "standard",
        ["balanced", "reliable", "clear"]⟩) ]

/-- Mutable state of an `LLMClient`: whether each provider SDK client has
been initialised (`this.openaiClient` / `this.anthropicClient` non-null). -/
structure LLMState where
  openaiConfigured : Bool
  anthropicConfigured : Bool
deriving Repr, DecidableEq

/-- A fresh `LLMClient` (constructor): no provider client configured. -/
def LLMState.init : LLMState := ⟨false, false⟩

/-- `LLMClient.setApiKeys`: a client object is (re)created when a key for its
provider is present; a previously created client survives a later call that
omits the key. -/
def llmSetApiKeys (st : LLMState) (openaiKey anthropicKey : Option String) :
    LLMState :=
  { openaiConfigured := st.openaiConfigured || openaiKey.isSome,
    anthropicConfigured := st.anthropicConfigured || anthropicKey.isSome }

/-- Whether the provider named `p` has a configured client in state `st`. -/
def providerConfigured (st : LLMState) (p : String) : Bool :=
  if p = "openai" then st.openaiConfigured
  else if p = "anthropic" then st.anthropicConfigured
  else false

/-- `LLMClient.isModelAvailable`. -/
def isModelAvailable (st : LLMState) (modelId : String) : Bool :=
  match alGet modelConfig modelId with
  | none => false
  | some cfg => providerConfigured st cfg.provider

/-- Outcome of `LLMClient.generateResponse` up to the external boundary:
either the call escalates into an invocation of the external provider
(with the request parameters it would carry), or it throws before any
provider traffic. -/
inductive GenResult where
  | call (provider modelName prompt : String) (maxTokens : Nat)
  | err (msg : String)
deriving Repr, DecidableEq

/-- `LLMClient.generateResponse(modelId, prompt)` (the orchestrator always
calls it without an `options` argument, so the per-model defaults apply).
The function looks up the model configuration and dispatches on the
provider; it performs NO length check before invoking the provider. -/
def generateResponse (st : LLMState) (modelId prompt : String) : GenResult :=
  match alGet modelConfig modelId with
  | none => .err ("Unknown model: " ++ modelId)
  | some config =>
    if config.provider = "openai" then
      if st.openaiConfigured then
        .call config.provider config.modelName prompt config.maxTokens
      else .err "OpenAI API key not configured"
    else if config.provider = "anthropic" then
      if st.anthropicConfigured then
        .call config.provider config.modelName prompt config.maxTokens
      else .err "Anthropic API key not configured"
    else .err ("Unknown provider: " ++ config.provider)

/-- `LLMClient.estimateTokenCount`: `Math.ceil(text.length / 4)`. -/
def estimateTokenCount (text : String) : Nat :=
  (text.length + 3) / 4

/-- `LLMClient.validatePromptLength`.  The JS guard is
`estimatedTokens > config.maxTokens * 0.7`; for every `maxTokens` in the
registry (all multiples of 10 and small enough), the IEEE-754 product
`maxTokens * 0.7` rounds to exactly the integer `7 * maxTokens / 10`, so the
guard is embedded as the exact comparison `10 * estimated > 7 * maxTokens`.
Indexing `this.modelConfig[modelId].maxTokens` with an unknown model throws
a `TypeError`. -/
def validatePromptLength (modelId prompt : String) : Except String Unit :=
  match alGet modelConfig modelId with
  | none => .error "TypeError: cannot read maxTokens of undefined"
  | some config =>
    let estimatedTokens := estimateTokenCount prompt
    if 10 * estimatedTokens > 7 * config.maxTokens then
      .error ("Prompt too long for " ++ modelId)
    else .ok ()

/-- `LLMClient.getAvailableModels`: available model ids sorted by tier
(premium, then advanced, then standard).  `Array.prototype.sort` is stable
(ES2019+), so the sort is the concatenation of the tier classes in
`Object.keys(this.modelConfig)` insertion order. -/
def llmGetAvailableModels (st : LLMState) : List String :=
  let avail := (modelConfig.filter
    (fun p => isModelAvailable st p.1)).map (·.1)
  (avail.filter (fun m => (alGet modelConfig m).any (·.tier = "premium")))
    ++ (avail.filter (fun m => (alGet modelConfig m).any (·.tier = "advanced")))
    ++ (avail.filter (fun m => (alGet modelConfig m).any (·.tier = "standard")))

/-- `LLMClient.getFinalReviewModels`: premium, then advanced, then standard
among the available models. -/
def getFinalReviewModels (st : LLMState) : List String :=
  let availableModels := llmGetAvailableModels st
  (availableModels.filter (fun m => (alGet modelConfig m).any (·.tier = "premium")))
    ++ (availableModels.filter (fun m => (alGet modelConfig m).any (·.tier = "advanced")))
    ++ (availableModels.filter (fun m => (alGet modelConfig m).any (·.tier = "standard")))

/-- `LLMClient.getBestFinalReviewModel` (`null` when nothing is available). -/
def getBestFinalReviewModel (st : LLMState) : Option String :=
  let finalReviewModels := getFinalReviewModels st
  let preferredOrder :=
    ["claude-sonnet-4", "gpt-4.1", "gpt-4o", "gpt-4-turbo", "claude-3-5-sonnet"]
  match preferredOrder.find? (fun p => finalReviewModels.contains p) with
  | some p => some p
  | none => finalReviewModels.head?

/-! ## Orchestrator registry, credentials and handoff strategies
(orchestrator module, `RefinementOrchestrator`) -/

/-- One entry of `this.availableModels` in the orchestrator constructor. -/
structure ModelDescriptor where
  id : String
  name : String
  provider : String
  capabilities : List String
deriving Repr, DecidableEq

/-- The orchestrator's static five-model catalog (`this.availableModels`). -/
def availableModels : List ModelDescriptor :=
  [ ⟨"gpt-4o", "GPT-4o", "openai", ["creative", "analytical", "technical"]⟩,
    ⟨"gpt-4-turbo", "GPT-4 Turbo", "openai", ["analytical", "comprehensive", "fast"]⟩,
    ⟨"gpt-4.1", "GPT-4.1", "openai", ["advanced", "nuanced", "precise"]⟩,
    ⟨"claude-sonnet-4", "Claude 4 Sonnet", "anthropic", ["thoughtful", "detailed", "analytical"]⟩,
    ⟨"claude-3-5-sonnet", "Claude 3.5 Sonnet", "anthropic", ["balanced", "reliable", "clear"]⟩ ]

/-- `RefinementOrchestrator.getModelById`. -/
def getModelById (modelId : String) : Option ModelDescriptor :=
  availableModels.find? (fun m => m.id = modelId)

/-- The mutable, non-session state of a `RefinementOrchestrator`:
its `LLMClient`, and `this.enabledModels` (`none` = the field was never
assigned, i.e. `setApiKeys` has not run yet). -/
structure OrchState where
  llm : LLMState
  enabledModels : Option (List ModelDescriptor)
deriving Repr, DecidableEq

/-- A freshly constructed orchestrator. -/
def OrchState.init : OrchState := ⟨LLMState.init, none⟩

/-- `RefinementOrchestrator.updateAvailableModels(apiKeys)`: filter the static
catalog to providers present in the given (validated) key object. -/
def updateAvailableModels (o : OrchState)
    (validatedOpenai validatedAnthropic : Bool) : OrchState :=
  { o with enabledModels := some (availableModels.filter (fun model =>
      if model.provider = "openai" then validatedOpenai
      else if model.provider = "anthropic" then validatedAnthropic
      else false)) }

/-- `RefinementOrchestrator.setApiKeys(apiKeys)`: format-validate each key
(OpenAI keys must start with `sk-` after trimming, Anthropic keys with
`sk-ant-`), forward the validated keys to the `LLMClient`, and recompute
`enabledModels` from the validated keys alone. -/
def setApiKeys (o : OrchState) (openaiKey anthropicKey : Option String) :
    OrchState :=
  let validOpenai := match openaiKey with
    | some k => jsStartsWith (jsTrim k) "sk-" && k ≠ ""
    | none => false
  let validAnthropic := match anthropicKey with
    | some k => jsStartsWith (jsTrim k) "sk-ant-" && k ≠ ""
    | none => false
  let llm := llmSetApiKeys o.llm
    (if validOpenai then openaiKey.map jsTrim else none)
    (if validAnthropic then anthropicKey.map jsTrim else none)
  updateAvailableModels { o with llm := llm } validOpenai validAnthropic

/-- `RefinementOrchestrator.getAvailableModels`:
`this.enabledModels || this.availableModels` (an *empty* `enabledModels`
array is truthy in JS and is returned as-is). -/
def orchGetAvailableModels (o : OrchState) : List ModelDescriptor :=
  match o.enabledModels with
  | some l => l
  | none => availableModels

/-- `RefinementOrchestrator.selectModelByCapabilities(required, exclude)`.
`scoredModels.sort((a, b) => b.score - a.score)` is a stable descending sort,
so taking index 0 afterwards picks the first candidate of maximal score. -/
def selectModelByCapabilities (o : OrchState) (requiredCapabilities : List String)
    (excludeModel : Option String) : Option String :=
  let avail := orchGetAvailableModels o
  let candidateModels := avail.filter (fun model =>
    (match excludeModel with
     | some e => model.id ≠ e
     | none => true)
    && requiredCapabilities.any (fun cap => model.capabilities.contains cap))
  if candidateModels.isEmpty then
    let fallbackModels := avail.filter (fun m => ¬ some m.id = excludeModel)
    match fallbackModels.head? with
    | some m => some m.id
    | none => (avail.head?).map (·.id)
  else
    let score := fun (model : ModelDescriptor) =>
      (requiredCapabilities.filter (fun cap => model.capabilities.contains cap)).length
    (candidateModels.foldl (fun best m =>
      match best with
      | none => some m
      | some b => if score m > score b then some m else best) none).map (·.id)

/-- `cross_provider.getNextModel`: alternate provider families; indexing an
empty family (`arr[iteration % 0]` = `arr[NaN]`) yields `undefined`. -/
def crossProviderNext (currentModel : String) (iteration : Nat) : Option String :=
  let openaiModels := availableModels.filter (fun m => m.provider = "openai")
  let anthropicModels := availableModels.filter (fun m => m.provider = "anthropic")
  let currentProvider := (getModelById currentModel).map (·.provider)
  if currentProvider = some "openai" then
    if anthropicModels.isEmpty then none
    else (anthropicModels.get? (iteration % anthropicModels.length)).map (·.id)
  else
    if openaiModels.isEmpty then none
    else (openaiModels.get? (iteration % openaiModels.length)).map (·.id)

/-- `capability_progression.getNextModel`. -/
def capabilityProgressionNext (o : OrchState) (currentModel : String)
    (phase : String) : Option String :=
  let phaseMap : List (String × List String) :=
    [ ("initial", ["creative", "comprehensive"]),
      ("critique", ["analytical", "thoughtful"]),
      ("improvement", ["precise", "nuanced"]),
      ("final", ["detailed", "reliable"]) ]
  let requiredCapabilities := (alGet phaseMap phase).getD ["balanced"]
  selectModelByCapabilities o requiredCapabilities (some currentModel)

/-- The fixed specialization table of `model_specialization.getNextModel`. -/
def specializationMap : List (String × String) :=
  [ ("creative_generation", "gpt-4o"),
    ("analytical_critique", "claude-sonnet-4"),
    ("technical_improvement", "gpt-4.1"),
    ("comprehensive_review", "claude-sonnet-4") ]

/-- The phase → specialization table of `model_specialization.getNextModel`. -/
def phaseToSpecialization : List (String × String) :=
  [ ("initial", "creative_generation"),
    ("critique", "analytical_critique"),
    ("improvement", "technical_improvement"),
    ("final", "comprehensive_review") ]

/-- `model_specialization.getNextModel`:
`specializationMap[phaseToSpecialization[phase]] || currentModel`. -/
def modelSpecializationNext (currentModel : String) (phase : String) : String :=
  jsOrStr ((alGet phaseToSpecialization phase).bind
    (fun spec => alGet specializationMap spec)) currentModel

/-- `this.handoffStrategies[strategyName].getNextModel(current, i, N, phase)`.
An unknown strategy name makes the JS property access yield `undefined` and
the subsequent call throw a `TypeError`, modelled as `.error`.  The value is
the returned model id, which each strategy may leave `undefined`. -/
def handoffGetNextModel (o : OrchState) (strategyName currentModel : String)
    (iteration totalIterations : Nat) (phase : String) :
    Except String (Option String) :=
  if strategyName = "cross_provider" then
    .ok (crossProviderNext currentModel iteration)
  else if strategyName = "capability_progression" then
    .ok (capabilityProgressionNext o currentModel phase)
  else if strategyName = "model_specialization" then
    .ok (some (modelSpecializationNext currentModel phase))
  else
    .error "TypeError: getNextModel of undefined"

/-! ## Prompt refiner (`backend/prompt-refiner.js`) -/

/-- A `ClarificationQuestion` record `{id, question}`. -/
structure Question where
  id : String
  question : String
deriving Repr, DecidableEq

/-- `PromptRefiner.validateClarificationAnswers(questions, answers)`:
one error per missing/blank answer, a distinct error per answer whose
trimmed length is below 3; all violations are collected. -/
def validateClarificationAnswers (questions : List Question)
    (answers : List (String × String)) : List String :=
  questions.foldl (fun errors question =>
    match alGet answers question.id with
    | none => errors ++ ["Please answer: " ++ question.question]
    | some answer =>
      if answer = "" then errors ++ ["Please answer: " ++ question.question]
      else if (jsTrim answer).length = 0 then
        errors ++ ["Please answer: " ++ question.question]
      else if (jsTrim answer).length < 3 then
        errors ++ ["Please provide a more detailed answer for: " ++ question.question]
      else errors) []

/-- The literal characters of `QUESTION_`. -/
def questionTagHead : List Char :=
  ['Q', 'U', 'E', 'S', 'T', 'I', 'O', 'N', '_']

/-- Length of a `QUESTION_\d+:` match starting at the head of `cs`
(`none` when the pattern does not match here). -/
def matchTagLen (cs : List Char) : Option Nat :=
  if questionTagHead.isPrefixOf cs then
    let rest := cs.drop 9
    let ds := rest.takeWhile Char.isDigit
    if ds.length > 0 && (rest.drop ds.length).head? = some ':' then
      some (9 + ds.length + 1)
    else none
  else none

/-- Whether the lookahead `(?=\nQUESTION_\d+:|$)` holds at the position
whose remaining input is `cs`. -/
def atBoundary (cs : List Char) : Bool :=
  match cs with
  | [] => true
  | c :: rest => c = '\n' && (matchTagLen rest).isSome

/-- Consume the lazy body `(.+?)` up to the first position satisfying the
lookahead; returns (consumed, rest-at-boundary).  The boundary test is
checked only after at least one character has been consumed. -/
def takeLazyBody (fuel : Nat) (acc cs : List Char) : List Char × List Char :=
  match fuel with
  | 0 => (acc, cs)
  | fuel + 1 =>
    if atBoundary cs then (acc, cs)
    else match cs with
      | [] => (acc, [])
      | c :: rest => takeLazyBody fuel (acc ++ [c]) rest

/-- The global scan of `/QUESTION_\d+:\s*(.+?)(?=\nQUESTION_\d+:|$)/gs`,
returning each raw match (tag, whitespace and body).  Backtracking of the
greedy `\s*` against the mandatory one-character body matters only when the
tag-plus-whitespace runs to the end of the input, in which case the body is
the last whitespace character; a tag at the very end of the input yields no
match and the scan resumes one character later. -/
def scanQuestionMatches (fuel : Nat) (cs : List Char) : List (List Char) :=
  match fuel with
  | 0 => []
  | fuel + 1 =>
    match cs with
    | [] => []
    | _ :: tailcs =>
      match matchTagLen cs with
      | none => scanQuestionMatches fuel tailcs
      | some tagLen =>
        let tag := cs.take tagLen
        let afterTag := cs.drop tagLen
        let ws := afterTag.takeWhile jsIsSpace
        let afterWs := afterTag.drop ws.length
        match afterWs with
        | [] =>
          if ws.isEmpty then
            -- no body can be matched here; the regex engine moves on
            scanQuestionMatches fuel tailcs
          else
            -- `\s*` backtracks one character to serve as the body
            [tag ++ ws]
        | c :: rest =>
          let (body, remaining) := takeLazyBody (rest.length) [c] rest
          (tag ++ ws ++ body) :: scanQuestionMatches fuel remaining

/-- `.replace(/QUESTION_\d+:\s*/, '')`: delete the first occurrence of the
tag pattern (with its trailing whitespace) anywhere in the string. -/
def stripFirstTag (fuel : Nat) (cs : List Char) : List Char :=
  match fuel with
  | 0 => cs
  | fuel + 1 =>
    match cs with
    | [] => []
    | c :: rest =>
      match matchTagLen cs with
      | some tagLen =>
        let afterTag := cs.drop tagLen
        afterTag.drop ((afterTag.takeWhile jsIsSpace).length)
      | none => c :: stripFirstTag fuel rest

/-- Case-insensitive list prefix test (for the `/i` regex flag). -/
def ciPrefix (pat cs : List Char) : Bool :=
  (pat.map Char.toLower).isPrefixOf (cs.map Char.toLower)

/-- `.replace(/^QUESTION_?\d*:?\s*/i, '')` on a fallback line. -/
def stripFallbackTag (cs : List Char) : List Char :=
  if ciPrefix questionTagHead.dropLast cs then
    let rest := cs.drop 8
    let rest := if rest.head? = some '_' then rest.drop 1 else rest
    let rest := rest.drop ((rest.takeWhile Char.isDigit).length)
    let rest := if rest.head? = some ':' then rest.drop 1 else rest
    rest.drop ((rest.takeWhile jsIsSpace).length)
  else cs

/-- Substring containment (`String.prototype.includes`). -/
def containsSub (needle hay : List Char) : Bool :=
  hay.tails.any (fun t => needle.isPrefixOf t)

/-- One fallback line qualifies as question-like. -/
def isQuestionLike (trimmed : List Char) : Bool :=
  trimmed.length > 10 &&
    (trimmed.contains '?' ||
      containsSub ("question".data) (trimmed.map Char.toLower))

/-- The fallback line scan: walk the lines, push each question-like line
(with the leading tag stripped and trimmed), stop after the fourth. -/
def fallbackScanLines (lines : List (List Char)) (questionCount : Nat) :
    List Question :=
  match lines with
  | [] => []
  | line :: rest =>
    let trimmed := jsTrimList line
    if isQuestionLike trimmed then
      let q : Question :=
        ⟨"q" ++ toString (questionCount + 1),
          String.mk (jsTrimList (stripFallbackTag trimmed))⟩
      if questionCount + 1 ≥ 4 then [q]
      else q :: fallbackScanLines rest (questionCount + 1)
    else fallbackScanLines rest questionCount

/-- `PromptRefiner.parseClarificationQuestions(questionsText)`. -/
def parseClarificationQuestions (questionsText : String) : List Question :=
  let cs := questionsText.data
  let questionMatches := scanQuestionMatches (cs.length + 1) cs
  let questions :=
    if questionMatches.isEmpty then
      -- `text.match` returned null: fall back to line scanning, capped at 4
      fallbackScanLines (cs.splitOn '\n') 0
    else
      (questionMatches.enum.filterMap (fun mi =>
        let questionText :=
          jsTrimList (stripFirstTag (mi.2.length + 1) mi.2)
        if questionText.length > 0 then
          some ⟨"q" ++ toString (mi.1 + 1), String.mk questionText⟩
        else none))
  if questions.isEmpty then
    [⟨"q1", "Could you provide more specific details about what you want to achieve with this request?"⟩]
  else questions

/-! ## Session data model (orchestrator) -/

/-- The `models` configuration object passed to `startRefinementProcess`. -/
structure ModelsConfig where
  primaryModel : String
  refinementModel : String
  finalReviewModel : Option String
  handoffStrategy : Option String
deriving Repr, DecidableEq

/-- A `modelUsageStats` entry created by `trackModelUsage`. -/
structure UsageStat where
  model : String
  operations : List (String × Nat)
  totalUsage : Nat
deriving Repr, DecidableEq

/-- An `iterationHistory` step record.  The `timestamp: Date.now()` field is
wall-clock and is omitted. -/
structure HistEntry where
  iteration : Nat
  model : String
  type : String
  input : String
  output : String
deriving Repr, DecidableEq

/-- A `RefinementSession` as created by `startRefinementProcess`.
Omitted fields: `startTime` (wall clock), `progressCallback` (observational
only), `steps` (display-only records; their computation's failure behavior is
modelled by `generateProcessSteps`), and the session-level `iterationHistory`
field, which the source initialises to `[]` and never updates —
`executeCollaborativeProcess` uses a local `iterationHistory` variable. -/
structure Session where
  id : String
  originalPrompt : String
  refinedPrompt : Option String
  models : ModelsConfig
  targetIterations : Nat
  currentIteration : Nat
  completedIterations : Nat
  handoffStrategy : String
  modelUsageStats : List (String × UsageStat)
  finalReviewModel : Option String
  pendingClarifications : Option (List Question)
deriving Repr, DecidableEq

/-- `RefinementOrchestrator.trackModelUsage(session, modelId, operationType)`:
insert a fresh zeroed entry for an unseen model (JS `Map.set` appends), then
bump the per-operation counter and `totalUsage`. -/
def trackModelUsage (session : Session) (modelId operationType : String) :
    Session :=
  -- `if (!stats.has(modelId)) stats.set(modelId, fresh); const s = stats.get(modelId)`
  -- is lookup-with-fresh-default (the freshly set entry lands at the end,
  -- exactly where `alSet` appends an absent key):
  let stats := (alGet session.modelUsageStats modelId).getD ⟨modelId, [], 0⟩
  let stats' : UsageStat :=
    { stats with
        operations := alSet stats.operations operationType
          (((alGet stats.operations operationType).getD 0) + 1),
        totalUsage := stats.totalUsage + 1 }
  { session with modelUsageStats := alSet session.modelUsageStats modelId stats' }

/-! ## Prompt construction (orchestrator) -/

/-- `RefinementOrchestrator.buildCritiquePrompt`.
`substring(0, 200)` is the 200-character prefix; `iteration <=
totalIterations/2` (JS float division) is the exact `2 * iteration ≤
totalIterations`. -/
def buildCritiquePrompt (originalPrompt currentResponse : String)
    (iteration totalIterations : Nat) (iterationHistory : List HistEntry) :
    String :=
  let previousCritiques := String.intercalate "\n"
    ((iterationHistory.filter (fun h => h.type = "critique")).map
      (fun h => s!"Iteration {h.iteration}: " ++ (h.output.take 200) ++ "..."))
  let afterCount := iteration - 1
  let critiqueBlock :=
    if previousCritiques = "" then ""
    else "**Previous Critique Themes:**\n" ++ previousCritiques ++ "\n"
  let focusLine :=
    if 2 * iteration ≤ totalIterations then "structural and content improvements"
    else "refinement and polish"
  s!"You are an expert content critic and improvement specialist conducting iteration {iteration} of {totalIterations} in a collaborative refinement process.

**Original Request:**
{originalPrompt}

**Current Response (After {afterCount} iterations):**
{currentResponse}

{critiqueBlock}

**Your Task for Iteration {iteration}/{totalIterations}:**
1. Evaluate how well the response addresses the original request
2. Identify specific areas for improvement not covered in previous iterations
3. Focus on {focusLine}
4. Suggest concrete changes to enhance quality, clarity, accuracy, and completeness
5. Consider the target audience and purpose
6. Prioritize the most impactful improvements for this iteration

**Provide your critique in this format:**
STRENGTHS: [What the response does well]
AREAS FOR IMPROVEMENT: [Specific issues to address that haven\x27t been covered before]
CONCRETE SUGGESTIONS: [Actionable improvements to implement]
PRIORITY: [Rank improvements by impact - focus on top 2-3]
ITERATION FOCUS: [What should this iteration specifically achieve?]

Be specific, constructive, and focus on improvements that will have the greatest positive impact while building on previous iterations."

/-- `RefinementOrchestrator.buildImprovementPrompt` (the source's
`iterationHistory` parameter is accepted but unused, as in the source). -/
def buildImprovementPrompt (originalPrompt currentResponse critique : String)
    (iteration totalIterations : Nat) (iterationHistory : List HistEntry) :
    String :=
  let progressContext :=
    if 2 * iteration ≤ totalIterations then
      "major structural and content improvements"
    else "refinement, polish, and final optimization"
  let contextFocus :=
    if 2 * iteration ≤ totalIterations then
      "Focus on major improvements and content development"
    else "Focus on refinement, clarity, and polish"
  let taskFour :=
    if iteration = totalIterations then
      "Prepare for final review - ensure completeness"
    else "Set up for next iteration"
  s!"You are implementing iteration {iteration} of {totalIterations} in a collaborative refinement process. Focus on {progressContext}.

**Original Request:**
{originalPrompt}

**Current Response:**
{currentResponse}

**Expert Feedback for Iteration {iteration}:**
{critique}

**Iteration Context:**
- This is iteration {iteration} of {totalIterations}
- {contextFocus}
- Previous iterations have already addressed earlier feedback

**Your Task:**
1. Implement the suggested improvements from the expert feedback
2. Maintain the strengths and positive aspects of the current response
3. Ensure the improved response fully addresses the original request
4. {taskFour}
5. Make the content more engaging, clear, and valuable

**Important Guidelines:**
- Focus on the highest-priority improvements first
- Maintain consistency in tone and style throughout
- Ensure factual accuracy in any additions or changes
- Keep the response well-organized and easy to follow
- Build upon the work of previous iterations

Provide the improved response:"

/-- First-occurrence deduplication, i.e. JS `Object.keys` of an object built
by insertion. -/
def firstOccurrences (l : List String) : List String :=
  l.foldl (fun acc m => if acc.contains m then acc else acc ++ [m]) []

/-- `RefinementOrchestrator.buildFinalReviewPrompt`. -/
def buildFinalReviewPrompt (originalPrompt finalResponse : String)
    (completedIterations : Nat) (iterationHistory : List HistEntry) : String :=
  let modelSummary :=
    String.intercalate ", " (firstOccurrences (iterationHistory.map (·.model)))
  let stepCount := iterationHistory.length
  s!"You are conducting the final quality review of a collaboratively refined response that has undergone {completedIterations} iterations of improvement.

**Original Request:**
{originalPrompt}

**Final Response After {completedIterations} Iterations:**
{finalResponse}

**Collaborative Process Summary:**
- Models involved: {modelSummary}
- Total refinement steps: {stepCount}
- Completed iterations: {completedIterations}

**Your Task:**
Provide the final, polished version that:
1. Fully addresses all aspects of the original request
2. Is clear, engaging, and well-structured
3. Contains accurate and valuable information
4. Uses appropriate tone and style
5. Is free of errors and inconsistencies
6. Represents the best possible outcome from collaborative refinement

**Quality Standards:**
- Professional-grade output ready for immediate use
- Incorporates insights from all previous iterations
- Demonstrates clear improvement over the original response
- Meets or exceeds user expectations

If the response is already excellent, you may make only minor polish improvements. If significant issues remain despite the iterations, provide a corrected version with explanation.

Final Response:"

/-! ## The collaborative pipeline (orchestrator) -/

/-- The external text-generation capability: given the zero-based index of
the generation call within the pipeline run, the model id and the prompt,
produce the generated text, or `none` for any provider failure (network,
rate limit, empty response, ...). -/
abbrev Gen := Nat → String → String → Option String

/-- Ghost record of one `llmClient.generateResponse` attempt made by the
pipeline, tagged with the pipeline phase of its call site. -/
structure TraceEntry where
  model : String
  prompt : String
  phase : String
deriving Repr, DecidableEq

/-- One pipeline generation call: `generateResponse` runs up to the provider
boundary; if it reaches the provider, the oracle supplies the text or the
failure. -/
def genCall (st : LLMState) (oracle : Gen) (k : Nat) (modelId prompt : String) :
    Except String String :=
  match generateResponse st modelId prompt with
  | .err msg => .error msg
  | .call _ _ _ _ =>
    match oracle k modelId prompt with
    | some text => .ok text
    | none => .error ("ProviderCallError: " ++ modelId)

/-- Make one generation attempt, appending it to the ghost trace; the oracle
index is the number of attempts already made. -/
def attemptGen (st : LLMState) (oracle : Gen) (tr : List TraceEntry)
    (modelId prompt phase : String) : Except String String × List TraceEntry :=
  (genCall st oracle tr.length modelId prompt, tr ++ [⟨modelId, prompt, phase⟩])

/-- The loop-local state of `executeCollaborativeProcess`: the session being
mutated, the running `currentResponse`, and the local `iterationHistory`. -/
structure LoopSt where
  session : Session
  currentResponse : String
  iterationHistory : List HistEntry
deriving Repr

/-- Result of part of a pipeline run: the error message if one was thrown,
the loop state as mutated so far, and the ghost trace. -/
structure LoopOut where
  error : Option String
  ls : LoopSt
  trace : List TraceEntry
deriving Repr

/-- One refinement iteration (`i` of `targetIterations`) of the loop body of
`executeCollaborativeProcess`: pick the critique model via the handoff
strategy (`|| refinementModel`), run the critique, track usage and record
history, pick the improvement model (`|| primaryModel`), run the improvement,
track usage, record history, and set `completedIterations := i`. -/
def iterOnce (st : LLMState) (o : OrchState) (oracle : Gen) (i : Nat)
    (ls : LoopSt) (tr : List TraceEntry) : LoopOut :=
  let session := { ls.session with currentIteration := i }
  let N := session.targetIterations
  match handoffGetNextModel o session.handoffStrategy
      session.models.primaryModel i N "critique" with
  | .error e => ⟨some e, { ls with session := session }, tr⟩
  | .ok cm =>
    let critiqueModel := jsOrStr cm session.models.refinementModel
    let critiquePrompt := buildCritiquePrompt (jsStr session.refinedPrompt)
      ls.currentResponse i N ls.iterationHistory
    match attemptGen st oracle tr critiqueModel critiquePrompt "critique" with
    | (.error e, tr) => ⟨some e, { ls with session := session }, tr⟩
    | (.ok critique, tr) =>
      let session := trackModelUsage session critiqueModel "critique"
      let hist := ls.iterationHistory ++
        [⟨i, critiqueModel, "critique", critiquePrompt, critique⟩]
      match handoffGetNextModel o session.handoffStrategy
          critiqueModel i N "improvement" with
      | .error e => ⟨some e, ⟨session, ls.currentResponse, hist⟩, tr⟩
      | .ok im =>
        let improvementModel := jsOrStr im session.models.primaryModel
        let improvementPrompt := buildImprovementPrompt
          (jsStr session.refinedPrompt) ls.currentResponse critique i N hist
        match attemptGen st oracle tr improvementModel improvementPrompt
            "improvement" with
        | (.error e, tr) => ⟨some e, ⟨session, ls.currentResponse, hist⟩, tr⟩
        | (.ok improved, tr) =>
          let session := trackModelUsage session improvementModel "improvement"
          let hist := hist ++
            [⟨i, improvementModel, "improvement", improvementPrompt, improved⟩]
          let session := { session with completedIterations := i }
          ⟨none, ⟨session, improved, hist⟩, tr⟩

/-- The `for (let i = 1; i <= targetIterations; i++)` loop, by remaining
iteration count. -/
def iterLoop (st : LLMState) (o : OrchState) (oracle : Gen) :
    Nat → Nat → LoopSt → List TraceEntry → LoopOut
  | 0, _, ls, tr => ⟨none, ls, tr⟩
  | rem + 1, i, ls, tr =>
    match iterOnce st o oracle i ls tr with
    | ⟨some e, ls', tr'⟩ => ⟨some e, ls', tr'⟩
    | ⟨none, ls', tr'⟩ => iterLoop st o oracle rem (i + 1) ls' tr'

/-- The result object assembled on pipeline success (`sessionDuration`,
which is wall-clock, is omitted). -/
structure RunResult where
  originalPrompt : String
  refinedPrompt : Option String
  finalOutput : String
  iterationHistory : List HistEntry
  targetIterations : Nat
  completedIterations : Nat
  handoffStrategy : String
  modelUsageStats : List (String × UsageStat)
deriving Repr

/-- What a pipeline run produces: the surfaced result or error, the session
record after all its in-place mutations, and the ghost trace of generation
attempts. -/
structure PipeOut where
  result : Except String RunResult
  session : Session
  trace : List TraceEntry
deriving Repr

/-- `RefinementOrchestrator.executeCollaborativeProcess(session)`:
initial generation with the primary model on the refined prompt, then the
iteration loop, then the final review with
`session.finalReviewModel || getBestFinalReviewModel()`.  Each thrown error
propagates unchanged (the `finally` clause that removes the session from the
active mapping lives in the callers' embedding). -/
def executeCollaborativeProcess (st : LLMState) (o : OrchState) (oracle : Gen)
    (session : Session) : PipeOut :=
  let prompt0 := jsStr session.refinedPrompt
  match attemptGen st oracle [] session.models.primaryModel prompt0
      "initial_generation" with
  | (.error e, tr) => ⟨.error e, session, tr⟩
  | (.ok currentResponse, tr) =>
    let session := trackModelUsage session session.models.primaryModel
      "initial_generation"
    let hist : List HistEntry :=
      [⟨0, session.models.primaryModel, "initial_generation", prompt0,
        currentResponse⟩]
    match iterLoop st o oracle session.targetIterations 1
        ⟨session, currentResponse, hist⟩ tr with
    | ⟨some e, ls, tr⟩ => ⟨.error e, ls.session, tr⟩
    | ⟨none, ls, tr⟩ =>
      let session := ls.session
      let finalModel :=
        jsOrOpt session.finalReviewModel (getBestFinalReviewModel st)
      let finalModelStr := jsStr finalModel
      let finalReviewPrompt := buildFinalReviewPrompt
        (jsStr session.refinedPrompt) ls.currentResponse
        session.completedIterations ls.iterationHistory
      match attemptGen st oracle tr finalModelStr finalReviewPrompt
          "final_review" with
      | (.error e, tr) => ⟨.error e, session, tr⟩
      | (.ok finalResponse, tr) =>
        let session := trackModelUsage session finalModelStr "final_review"
        ⟨.ok
          { originalPrompt := session.originalPrompt,
            refinedPrompt := session.refinedPrompt,
            finalOutput := finalResponse,
            iterationHistory := ls.iterationHistory,
            targetIterations := session.targetIterations,
            completedIterations := session.completedIterations,
            handoffStrategy := session.handoffStrategy,
            modelUsageStats := session.modelUsageStats },
          session, tr⟩

/-! ## Process-step generation and the public session operations -/

/-- A timeline step record (its `title`/`description` strings are
display-only and omitted; the initial step carries no `modelId`). -/
structure Step where
  id : String
  type : String
  status : String
  iteration : Nat
  modelId : Option String
deriving Repr, DecidableEq

/-- The `for` loop of `generateProcessSteps` (model selection can throw a
`TypeError` on an unknown handoff strategy, exactly as in the pipeline). -/
def generateProcessStepsLoop (o : OrchState) (session : Session) :
    Nat → Nat → Except String (List Step)
  | 0, _ => .ok []
  | rem + 1, i =>
    match handoffGetNextModel o session.handoffStrategy
        session.models.primaryModel i session.targetIterations "critique" with
    | .error e => .error e
    | .ok cm =>
      let critiqueModel := jsOrStr cm session.models.refinementModel
      match handoffGetNextModel o session.handoffStrategy
          critiqueModel i session.targetIterations "improvement" with
      | .error e => .error e
      | .ok im =>
        let improvementModel := jsOrStr im session.models.primaryModel
        match generateProcessStepsLoop o session rem (i + 1) with
        | .error e => .error e
        | .ok steps =>
          .ok ([⟨s!"iteration-{i}-critique", "critique", "pending", i,
                  some critiqueModel⟩,
                ⟨s!"iteration-{i}-improve", "iterate", "pending", i,
                  some improvementModel⟩] ++ steps)

/-- `RefinementOrchestrator.generateProcessSteps(session)`. -/
def generateProcessSteps (o : OrchState) (session : Session) :
    Except String (List Step) :=
  let initialStep : Step := ⟨"initial-generation", "generate", "pending", 0, none⟩
  match generateProcessStepsLoop o session session.targetIterations 1 with
  | .error e => .error e
  | .ok iterationSteps =>
    let finalModel := selectModelByCapabilities o ["detailed", "comprehensive"] none
    .ok ([initialStep] ++ iterationSteps ++
      [⟨"final-review", "refine", "pending", session.targetIterations + 1,
        finalModel⟩])

/-- Value returned by `startRefinementProcess` / `submitClarification` /
`startCollaborativeGeneration`: a clarification request, a completed result,
or an `{error}` object. -/
inductive StartResponse where
  | clarification (sessionId : String) (questions : List Question)
  | complete (sessionId : String) (result : RunResult)
  | failure (error : String)
deriving Repr

/-- A public operation's outcome: the response surfaced to the caller, the
active-session mapping afterwards, and the ghost trace of pipeline
generation attempts (analyzer-side calls are not pipeline calls). -/
structure StartOut where
  response : StartResponse
  sessions : List (String × Session)
  trace : List TraceEntry
deriving Repr

/-- `RefinementOrchestrator.startCollaborativeGeneration(sessionId)`:
look up the session, compute the display steps (whose failure is caught and
deletes the session), run the pipeline — whose `finally` removes the session
from the active mapping in every case — and surface the result or error. -/
def startCollaborativeGeneration (st : LLMState) (o : OrchState) (oracle : Gen)
    (sessions : List (String × Session)) (sessionId : String) : StartOut :=
  match alGet sessions sessionId with
  | none => ⟨.failure "Session not found", sessions, []⟩
  | some session =>
    match generateProcessSteps o session with
    | .error e => ⟨.failure e, alDelete sessions sessionId, []⟩
    | .ok _steps =>
      let po := executeCollaborativeProcess st o oracle session
      let sessions := alDelete sessions sessionId
      match po.result with
      | .ok result => ⟨.complete sessionId result, sessions, po.trace⟩
      | .error e => ⟨.failure e, sessions, po.trace⟩

/-- Outcome of `promptRefiner.analyzeAndRefine(initialPrompt, llmClient)`.
The analyzer's own behavior is driven by external model output; its three
observable outcomes at the call site in `startRefinementProcess` are:
clarification questions, a directly refined prompt, or a thrown error. -/
inductive AnalyzeOutcome where
  | clarify (questions : List Question)
  | refined (refinedPrompt : String)
  | failed (message : String)
deriving Repr

/-- `RefinementOrchestrator.startRefinementProcess(initialPrompt, models,
iterations)`: create and register the session (auto-resolving
`finalReviewModel` and defaulting the handoff strategy), run the analyzer;
on `needsClarification` store the questions and return them without touching
the generation pipeline; otherwise set `refinedPrompt` and run the pipeline;
on an analyzer error delete the session and surface `{error}`. -/
def startRefinementProcess (st : LLMState) (o : OrchState) (oracle : Gen)
    (sessions : List (String × Session)) (sessionId initialPrompt : String)
    (models : ModelsConfig) (iterations : Nat)
    (refinementResult : AnalyzeOutcome) : StartOut :=
  let finalReviewModel := jsOrOpt models.finalReviewModel
    (getBestFinalReviewModel st)
  let session : Session :=
    { id := sessionId,
      originalPrompt := initialPrompt,
      refinedPrompt := none,
      models := { models with finalReviewModel := finalReviewModel },
      targetIterations := iterations,
      currentIteration := 0,
      completedIterations := 0,
      handoffStrategy := jsOrStr models.handoffStrategy "model_specialization",
      modelUsageStats := [],
      finalReviewModel := finalReviewModel,
      pendingClarifications := none }
  let sessions := alSet sessions sessionId session
  match refinementResult with
  | .clarify questions =>
    let session := { session with pendingClarifications := some questions }
    ⟨.clarification sessionId questions, alSet sessions sessionId session, []⟩
  | .refined refinedPrompt =>
    let session := { session with refinedPrompt := some refinedPrompt }
    startCollaborativeGeneration st o oracle
      (alSet sessions sessionId session) sessionId
  | .failed message =>
    ⟨.failure message, alDelete sessions sessionId, []⟩

/-- `RefinementOrchestrator.submitClarification(sessionId, answers)`:
unknown session and absent `pendingClarifications` are caller errors with no
state change; validation failures surface the collected violations with no
state change; otherwise the prompt is refined (`refineWithClarifications` is
one analyzer-side generation call, abstracted as its outcome
`refineOutcome`), `refinedPrompt` is set, `pendingClarifications` cleared,
and the pipeline runs.  The `catch` of this method does not delete the
session. -/
def submitClarification (st : LLMState) (o : OrchState) (oracle : Gen)
    (sessions : List (String × Session)) (sessionId : String)
    (answers : List (String × String)) (refineOutcome : Except String String) :
    StartOut :=
  match alGet sessions sessionId with
  | none => ⟨.failure "Session not found", sessions, []⟩
  | some session =>
    match session.pendingClarifications with
    | none => ⟨.failure "No pending clarifications for this session", sessions, []⟩
    | some pendingClarifications =>
      let validationErrors :=
        validateClarificationAnswers pendingClarifications answers
      if validationErrors ≠ [] then
        ⟨.failure ("Validation errors: " ++
          String.intercalate ", " validationErrors), sessions, []⟩
      else
        match refineOutcome with
        | .error message => ⟨.failure message, sessions, []⟩
        | .ok refinedPrompt =>
          let session := { session with
            refinedPrompt := some refinedPrompt,
            pendingClarifications := none }
          startCollaborativeGeneration st o oracle
            (alSet sessions sessionId session) sessionId

/-! ## Shared helper lemmas -/

/-- Total generation-call count recorded in a usage-stats map. -/
def sumUsage (stats : List (String × UsageStat)) : Nat :=
  (stats.map (fun p => p.2.totalUsage)).sum

theorem alGet_alSet_self {α : Type} (m : List (String × α)) (k : String)
    (v : α) : alGet (alSet m k v) k = some v := by
  induction m with
  | nil => simp [alSet, alGet]
  | cons p rest ih =>
    by_cases h : p.1 = k
    · simp [alSet, alGet, h]
    · simp [alSet, alGet, h, ih]

theorem alGet_alDelete {α : Type} (m : List (String × α)) (k : String) :
    alGet (alDelete m k) k = none := by
  induction m with
  | nil => simp [alDelete, alGet]
  | cons p rest ih =>
    by_cases h : p.1 = k
    · simpa [alDelete, alGet, h] using ih
    · simpa [alDelete, alGet, h] using ih

theorem sumUsage_alSet_of_get (stats : List (String × UsageStat)) (k : String)
    (w v : UsageStat) (h : alGet stats k = some w) :
    sumUsage (alSet stats k v) + w.totalUsage = sumUsage stats + v.totalUsage := by
  induction stats with
  | nil => simp [alGet] at h
  | cons p rest ih =>
    by_cases hk : p.1 = k
    · simp [alGet, hk] at h
      subst h
      simp [alSet, hk, sumUsage]
      omega
    · simp only [alGet, hk, if_false, if_neg] at h
      have := ih h
      simp [alSet, hk, sumUsage] at this ⊢
      omega

theorem sumUsage_alSet_of_none (stats : List (String × UsageStat)) (k : String)
    (v : UsageStat) (h : alGet stats k = none) :
    sumUsage (alSet stats k v) = sumUsage stats + v.totalUsage := by
  induction stats with
  | nil => simp [alSet, sumUsage]
  | cons p rest ih =>
    by_cases hk : p.1 = k
    · simp [alGet, hk] at h
    · simp only [alGet, hk, if_false, if_neg] at h
      have := ih h
      simp [alSet, hk, sumUsage] at this ⊢
      omega

/-- `trackModelUsage` only rewrites `modelUsageStats`, and adds exactly one
to the total usage count. -/
theorem trackModelUsage_spec (session : Session) (modelId operationType : String) :
    ∃ ms, trackModelUsage session modelId operationType =
        { session with modelUsageStats := ms } ∧
      sumUsage ms = sumUsage session.modelUsageStats + 1 := by
  refine ⟨_, rfl, ?_⟩
  rcases hw : alGet session.modelUsageStats modelId with _ | w
  · have := sumUsage_alSet_of_none session.modelUsageStats modelId
      { (⟨modelId, [], 0⟩ : UsageStat) with
          operations := alSet ((⟨modelId, [], 0⟩ : UsageStat)).operations
            operationType
            (((alGet ((⟨modelId, [], 0⟩ : UsageStat)).operations
              operationType).getD 0) + 1),
          totalUsage := ((⟨modelId, [], 0⟩ : UsageStat)).totalUsage + 1 } hw
    simp [hw] at this ⊢
    omega
  · have := sumUsage_alSet_of_get session.modelUsageStats modelId w
      { w with
          operations := alSet w.operations operationType
            (((alGet w.operations operationType).getD 0) + 1),
          totalUsage := w.totalUsage + 1 } hw
    simp [hw] at this ⊢
    omega

/-! ## Claim theorems -/

/-- C6: under the `model_specialization` handoff strategy, `getNextModel` for
phase `critique` returns the fixed table's `analytical_critique` model
(`claude-sonnet-4`) for every `currentModel`, iteration index and
`totalIterations`; for a phase with no entry in the phase-to-specialization
table it returns `currentModel` unchanged. -/
theorem claim_C6 (o : OrchState) (currentModel : String)
    (iteration totalIterations : Nat) :
    handoffGetNextModel o "model_specialization" currentModel iteration
      totalIterations "critique" = .ok (some "claude-sonnet-4") ∧
    (∀ phase, alGet phaseToSpecialization phase = none →
      handoffGetNextModel o "model_specialization" currentModel iteration
        totalIterations phase = .ok (some currentModel)) := by
  constructor
  · rfl
  · intro phase h
    simp [handoffGetNextModel, modelSpecializationNext, h, jsOrStr]

/-- Witness for C6 at concrete inputs (`final_review` is a phase absent from
the phase-to-specialization table). -/
theorem claim_C6_witness :
    handoffGetNextModel OrchState.init "model_specialization" "gpt-4o" 1 2
      "critique" = .ok (some "claude-sonnet-4") ∧
    alGet phaseToSpecialization "final_review" = none ∧
    handoffGetNextModel OrchState.init "model_specialization" "gpt-4o" 1 2
      "final_review" = .ok (some "gpt-4o") :=
  ⟨(claim_C6 OrchState.init "gpt-4o" 1 2).1, rfl,
    (claim_C6 OrchState.init "gpt-4o" 1 2).2 "final_review" rfl⟩

/-- C7: `buildCritiquePrompt` and `buildImprovementPrompt` are deterministic:
equal argument tuples give byte-identical prompt strings. -/
theorem claim_C7
    (originalPrompt₁ currentResponse₁ critique₁ : String)
    (iteration₁ totalIterations₁ : Nat) (iterationHistory₁ : List HistEntry)
    (originalPrompt₂ currentResponse₂ critique₂ : String)
    (iteration₂ totalIterations₂ : Nat) (iterationHistory₂ : List HistEntry)
    (h : (originalPrompt₁, currentResponse₁, critique₁, iteration₁,
            totalIterations₁, iterationHistory₁) =
         (originalPrompt₂, currentResponse₂, critique₂, iteration₂,
            totalIterations₂, iterationHistory₂)) :
    buildCritiquePrompt originalPrompt₁ currentResponse₁ iteration₁
        totalIterations₁ iterationHistory₁ =
      buildCritiquePrompt originalPrompt₂ currentResponse₂ iteration₂
        totalIterations₂ iterationHistory₂ ∧
    buildImprovementPrompt originalPrompt₁ currentResponse₁ critique₁
        iteration₁ totalIterations₁ iterationHistory₁ =
      buildImprovementPrompt originalPrompt₂ currentResponse₂ critique₂
        iteration₂ totalIterations₂ iterationHistory₂ := by
  simp only [Prod.mk.injEq] at h
  obtain ⟨h1, h2, h3, h4, h5, h6⟩ := h
  subst h1 h2 h3 h4 h5 h6
  exact ⟨rfl, rfl⟩

/-- Witness for C7 at a concrete argument tuple. -/
theorem claim_C7_witness :
    (("a", "b", "c", 1, 2, ([] : List HistEntry)) =
      ("a", "b", "c", 1, 2, ([] : List HistEntry))) ∧
    (buildCritiquePrompt "a" "b" 1 2 [] = buildCritiquePrompt "a" "b" 1 2 [] ∧
     buildImprovementPrompt "a" "b" "c" 1 2 [] =
       buildImprovementPrompt "a" "b" "c" 1 2 []) :=
  ⟨rfl, claim_C7 "a" "b" "c" 1 2 [] "a" "b" "c" 1 2 [] rfl⟩

/-- A model response with five `QUESTION_n:` lines. -/
def fiveQuestionsText : String :=
  "QUESTION_1: What is A?\nQUESTION_2: What is B?\nQUESTION_3: What is C?\nQUESTION_4: What is D?\nQUESTION_5: What is E?"

/-- A model response with five question-like lines but no `QUESTION_n:` tag,
so it is handled by the fallback line scan. -/
def fallbackQuestionsText : String :=
  "1. What colour do you want?\n2. What size do you want?\n3. What shape do you want?\n4. What name do you want?\n5. What tone do you want?"

set_option maxRecDepth 40000 in
/-- C10: `parseClarificationQuestions` caps at four questions only in its
fallback line-scanning path: the primary `QUESTION_n:` pattern returns every
matched question (five here), the fallback input with five question-like
lines is capped at four, and every input yields a non-empty list. -/
theorem claim_C10 :
    parseClarificationQuestions fiveQuestionsText =
      [⟨"q1", "What is A?"⟩, ⟨"q2", "What is B?"⟩, ⟨"q3", "What is C?"⟩,
       ⟨"q4", "What is D?"⟩, ⟨"q5", "What is E?"⟩] ∧
    4 < (parseClarificationQuestions fiveQuestionsText).length ∧
    (parseClarificationQuestions fallbackQuestionsText).length = 4 ∧
    ∀ questionsText, 1 ≤ (parseClarificationQuestions questionsText).length := by
  refine ⟨by decide, by decide, by decide, ?_⟩
  intro questionsText
  have key : ∀ (qs : List Question),
      1 ≤ (if qs.isEmpty = true then
        [(⟨"q1", "Could you provide more specific details about what you want to achieve with this request?"⟩ : Question)]
      else qs).length := by
    intro qs
    rcases qs with _ | ⟨q, rest⟩ <;> simp
  exact key _

/-- A 12000-character prompt: an estimated 3000 tokens, well above the
2800-token 70% budget of `gpt-4-turbo` (`maxTokens` 4000). -/
def longPrompt : String := String.mk (List.replicate 12000 'a')

theorem longPrompt_over : 10 * estimateTokenCount longPrompt > 7 * 4000 := by
  have h : longPrompt.length = 12000 := by
    rw [longPrompt]
    show (List.replicate 12000 'a').length = 12000
    rw [List.length_replicate]
  norm_num [estimateTokenCount, h]

/-- C4 counterexample: a prompt whose estimated token count exceeds 70% of
`gpt-4-turbo`'s budget is nevertheless forwarded by `generateResponse`
straight to the external provider — no prompt-too-long error is raised,
because `generateResponse` never invokes `validatePromptLength`. -/
theorem claim_C4_counterexample :
    10 * estimateTokenCount longPrompt > 7 * 4000 ∧
    generateResponse ⟨true, true⟩ "gpt-4-turbo" longPrompt =
      GenResult.call "openai" "gpt-4-turbo-preview" longPrompt 4000 := by
  exact ⟨longPrompt_over, rfl⟩

/-- C4 amended: for every registry model and over-budget prompt, the
stand-alone guard `validatePromptLength` does fail with a prompt-too-long
error, but `generateResponse` performs no length check at all: whenever the
model's provider credential is configured it invokes the external provider
regardless of the prompt's length. -/
theorem claim_C4_amended (st : LLMState) (modelId prompt : String)
    (config : ModelConfig)
    (hc : alGet modelConfig modelId = some config)
    (hover : 10 * estimateTokenCount prompt > 7 * config.maxTokens)
    (hcred : providerConfigured st config.provider = true) :
    validatePromptLength modelId prompt =
      .error ("Prompt too long for " ++ modelId) ∧
    generateResponse st modelId prompt =
      GenResult.call config.provider config.modelName prompt config.maxTokens := by
  constructor
  · simp [validatePromptLength, hc, hover]
  · unfold generateResponse
    rw [hc]
    by_cases hp : config.provider = "openai"
    · unfold providerConfigured at hcred
      rw [hp, if_pos rfl] at hcred
      simp [hp, hcred]
    · by_cases hq : config.provider = "anthropic"
      · unfold providerConfigured at hcred
        rw [hq, if_neg (by decide), if_pos rfl] at hcred
        simp [hp, hq, hcred]
      · unfold providerConfigured at hcred
        rw [if_neg hp, if_neg hq] at hcred
        exact absurd hcred (by decide)

/-- Witness for the amended C4 at `gpt-4-turbo` and the concrete
12000-character prompt. -/
theorem claim_C4_amended_witness :
    validatePromptLength "gpt-4-turbo" longPrompt =
      .error ("Prompt too long for " ++ "gpt-4-turbo") ∧
    generateResponse ⟨true, true⟩ "gpt-4-turbo" longPrompt =
      GenResult.call "openai" "gpt-4-turbo-preview" longPrompt 4000 :=
  claim_C4_amended ⟨true, true⟩ "gpt-4-turbo" longPrompt
    ⟨"openai", "gpt-4-turbo-preview", 4000, "advanced",
      ["analytical", "comprehensive", "reliable", "fast"]⟩
    rfl longPrompt_over rfl

/-- C8 counterexample: on a freshly constructed orchestrator no provider has
a configured credential, yet `getAvailableModels` returns the entire static
five-model catalog (the `enabledModels || availableModels` fallback), so the
returned descriptors are not filtered to configured providers in every
state. -/
theorem claim_C8_counterexample :
    OrchState.init.llm.openaiConfigured = false ∧
    OrchState.init.llm.anthropicConfigured = false ∧
    (orchGetAvailableModels OrchState.init).map (fun m => m.id) =
      ["gpt-4o", "gpt-4-turbo", "gpt-4.1", "claude-sonnet-4",
       "claude-3-5-sonnet"] :=
  ⟨rfl, rfl, rfl⟩

/-- C8 amended: once `setApiKeys` has run, `getAvailableModels` returns only
descriptors whose provider has a configured credential; before any
credential configuration it returns the full static catalog regardless of
credentials. -/
theorem claim_C8_amended (o : OrchState) (openaiKey anthropicKey : Option String)
    (m : ModelDescriptor)
    (hm : m ∈ orchGetAvailableModels (setApiKeys o openaiKey anthropicKey)) :
    providerConfigured (setApiKeys o openaiKey anthropicKey).llm m.provider
      = true := by
  unfold setApiKeys at hm ⊢
  simp only [updateAvailableModels, orchGetAvailableModels, List.mem_filter] at hm
  obtain ⟨hmem, hpred⟩ := hm
  by_cases hp : m.provider = "openai"
  · rw [hp] at hpred ⊢
    simp only [if_pos rfl] at hpred
    unfold providerConfigured
    rw [if_pos rfl]
    simp only [updateAvailableModels, llmSetApiKeys]
    rcases openaiKey with _ | k
    · simp at hpred
    · simp at hpred
      simp [hpred.1, hpred.2]
  · by_cases hq : m.provider = "anthropic"
    · rw [hq] at hpred ⊢
      rw [if_neg (by decide), if_pos rfl] at hpred
      unfold providerConfigured
      rw [if_neg (by decide), if_pos rfl]
      simp only [updateAvailableModels, llmSetApiKeys]
      rcases anthropicKey with _ | k
      · simp at hpred
      · simp at hpred
        simp [hpred.1, hpred.2]
    · rw [if_neg hp, if_neg hq] at hpred
      exact absurd hpred (by decide)

/-- Witness for the amended C8: after configuring only an OpenAI credential,
`gpt-4o` is listed and its provider is configured. -/
theorem claim_C8_amended_witness :
    (⟨"gpt-4o", "GPT-4o", "openai", ["creative", "analytical", "technical"]⟩ :
        ModelDescriptor) ∈
      orchGetAvailableModels (setApiKeys OrchState.init (some "sk-test") none) ∧
    providerConfigured
      (setApiKeys OrchState.init (some "sk-test") none).llm "openai" = true :=
  ⟨by decide,
    claim_C8_amended OrchState.init (some "sk-test") none
      ⟨"gpt-4o", "GPT-4o", "openai", ["creative", "analytical", "technical"]⟩
      (by decide)⟩

/-- C9: when `submitClarification` rejects the answers (missing, blank or
under 3 characters after trimming), nothing changes: the active-session
mapping is exactly as before (so the session is still present, its
`pendingClarifications` intact and `refinedPrompt` still unset), no pipeline
generation call is made, and a subsequent `submitClarification` on the same
mapping behaves as if the failed attempt had never happened. -/
theorem claim_C9 (st : LLMState) (o : OrchState) (oracle : Gen)
    (sessions : List (String × Session)) (sessionId : String)
    (answers : List (String × String)) (refineOutcome : Except String String)
    (session : Session) (questions : List Question)
    (hs : alGet sessions sessionId = some session)
    (hq : session.pendingClarifications = some questions)
    (hv : validateClarificationAnswers questions answers ≠ []) :
    (submitClarification st o oracle sessions sessionId answers
        refineOutcome).response =
      .failure ("Validation errors: " ++ String.intercalate ", "
        (validateClarificationAnswers questions answers)) ∧
    (submitClarification st o oracle sessions sessionId answers
        refineOutcome).sessions = sessions ∧
    (submitClarification st o oracle sessions sessionId answers
        refineOutcome).trace = [] ∧
    (∀ answers₂ refineOutcome₂,
      submitClarification st o oracle
          (submitClarification st o oracle sessions sessionId answers
            refineOutcome).sessions sessionId answers₂ refineOutcome₂ =
        submitClarification st o oracle sessions sessionId answers₂
          refineOutcome₂) := by
  have hrun : submitClarification st o oracle sessions sessionId answers
      refineOutcome =
      ⟨.failure ("Validation errors: " ++ String.intercalate ", "
        (validateClarificationAnswers questions answers)), sessions, []⟩ := by
    unfold submitClarification
    rw [hs]
    dsimp only
    rw [hq]
    dsimp only
    rw [if_pos hv]
  refine ⟨by rw [hrun], by rw [hrun], by rw [hrun], ?_⟩
  intro answers₂ refineOutcome₂
  rw [hrun]

/-- A concrete session awaiting one clarification answer. -/
def c9Session : Session :=
  { id := "s1", originalPrompt := "orig", refinedPrompt := none,
    models := ⟨"gpt-4o", "claude-3-5-sonnet", none, none⟩,
    targetIterations := 2, currentIteration := 0, completedIterations := 0,
    handoffStrategy := "model_specialization", modelUsageStats := [],
    finalReviewModel := none,
    pendingClarifications := some [⟨"q1", "What?"⟩] }

/-- Witness for C9: one pending question, an answer of two characters. -/
theorem claim_C9_witness :
    (submitClarification ⟨true, true⟩ OrchState.init (fun _ _ _ => some "ok")
        [("s1", c9Session)] "s1" [("q1", "ab")] (.ok "refined")).sessions =
      [("s1", c9Session)] :=
  (claim_C9 ⟨true, true⟩ OrchState.init (fun _ _ _ => some "ok")
    [("s1", c9Session)] "s1" [("q1", "ab")] (.ok "refined") c9Session
    [⟨"q1", "What?"⟩] rfl rfl (by decide)).2.1

/-- `startCollaborativeGeneration` removes a found session from the active
mapping on every path (steps failure, pipeline failure, pipeline success). -/
theorem startCollabGen_removes (st : LLMState) (o : OrchState) (oracle : Gen)
    (sessions : List (String × Session)) (sessionId : String) (sess : Session)
    (h : alGet sessions sessionId = some sess) :
    alGet (startCollaborativeGeneration st o oracle sessions
      sessionId).sessions sessionId = none := by
  unfold startCollaborativeGeneration
  rw [h]
  dsimp only
  cases hsteps : generateProcessSteps o sess with
  | error e => exact alGet_alDelete _ _
  | ok steps =>
    dsimp only
    cases hres : (executeCollaborativeProcess st o oracle sess).result with
    | error e => exact alGet_alDelete _ _
    | ok r => exact alGet_alDelete _ _

/-- C3: when the analyzer asks for clarification, `startRefinementProcess`
returns the session id with the question list, makes no pipeline generation
call, stores the questions as the session's `pendingClarifications`, leaves
`refinedPrompt` unset — and any later `submitClarification` that leaves the
session in the active mapping (i.e. does not run the pipeline to completion
or failure) also leaves `refinedPrompt` unset. -/
theorem claim_C3 (st : LLMState) (o : OrchState) (oracle : Gen)
    (sessions : List (String × Session)) (sessionId initialPrompt : String)
    (models : ModelsConfig) (iterations : Nat) (questions : List Question) :
    (startRefinementProcess st o oracle sessions sessionId initialPrompt
        models iterations (.clarify questions)).response =
      .clarification sessionId questions ∧
    (startRefinementProcess st o oracle sessions sessionId initialPrompt
        models iterations (.clarify questions)).trace = [] ∧
    (∃ session,
      alGet (startRefinementProcess st o oracle sessions sessionId
          initialPrompt models iterations (.clarify questions)).sessions
          sessionId = some session ∧
      session.pendingClarifications = some questions ∧
      session.refinedPrompt = none) ∧
    (∀ answers refineOutcome s₂,
      alGet (submitClarification st o oracle
          (startRefinementProcess st o oracle sessions sessionId initialPrompt
            models iterations (.clarify questions)).sessions
          sessionId answers refineOutcome).sessions sessionId = some s₂ →
      s₂.refinedPrompt = none) := by
  obtain ⟨base, qsess, hout, hpend, hrefined⟩ :
      ∃ base qsess,
        startRefinementProcess st o oracle sessions sessionId initialPrompt
            models iterations (.clarify questions) =
          ⟨.clarification sessionId questions,
            alSet (alSet sessions sessionId base) sessionId qsess, []⟩ ∧
        qsess.pendingClarifications = some questions ∧
        qsess.refinedPrompt = none :=
    ⟨_, _, rfl, rfl, rfl⟩
  rw [hout]
  have hget : alGet (alSet (alSet sessions sessionId base) sessionId qsess)
      sessionId = some qsess := alGet_alSet_self _ _ _
  refine ⟨rfl, rfl, ⟨qsess, hget, hpend, hrefined⟩, ?_⟩
  intro answers refineOutcome s₂ hs₂
  unfold submitClarification at hs₂
  rw [hget] at hs₂
  dsimp only at hs₂
  rw [hpend] at hs₂
  dsimp only at hs₂
  by_cases hv : validateClarificationAnswers questions answers ≠ []
  · rw [if_pos hv] at hs₂
    dsimp only at hs₂
    rw [hget] at hs₂
    cases hs₂
    exact hrefined
  · rw [if_neg hv] at hs₂
    rcases refineOutcome with msg | refinedPrompt
    · dsimp only at hs₂
      rw [hget] at hs₂
      cases hs₂
      exact hrefined
    · dsimp only at hs₂
      rw [startCollabGen_removes st o oracle _ sessionId _
        (alGet_alSet_self _ _ _)] at hs₂
      cases hs₂

/-- Witness for C3 at concrete inputs. -/
theorem claim_C3_witness :
    (startRefinementProcess ⟨true, true⟩ OrchState.init (fun _ _ _ => some "ok")
        [] "s1" "orig" ⟨"gpt-4o", "claude-3-5-sonnet", none, none⟩ 2
        (.clarify [⟨"q1", "What?"⟩])).response =
      .clarification "s1" [⟨"q1", "What?"⟩] ∧
    (startRefinementProcess ⟨true, true⟩ OrchState.init (fun _ _ _ => some "ok")
        [] "s1" "orig" ⟨"gpt-4o", "claude-3-5-sonnet", none, none⟩ 2
        (.clarify [⟨"q1", "What?"⟩])).trace = [] :=
  ⟨(claim_C3 ⟨true, true⟩ OrchState.init (fun _ _ _ => some "ok") [] "s1"
      "orig" ⟨"gpt-4o", "claude-3-5-sonnet", none, none⟩ 2
      [⟨"q1", "What?"⟩]).1,
   (claim_C3 ⟨true, true⟩ OrchState.init (fun _ _ _ => some "ok") [] "s1"
      "orig" ⟨"gpt-4o", "claude-3-5-sonnet", none, none⟩ 2
      [⟨"q1", "What?"⟩]).2.1⟩

/-! ## Pipeline run analysis (for C1, C2, C5) -/

/-- Phases contributed by `rem` refinement iterations. -/
def iterPhases (rem : Nat) : List String :=
  (List.replicate rem ["critique", "improvement"]).join

/-- The phase schedule of a complete run with `N` iterations:
one initial generation, `N` critique/improvement pairs, one final review. -/
def fullSchedulePhases (N : Nat) : List String :=
  "initial_generation" :: (iterPhases N ++ ["final_review"])

theorem iterPhases_succ (rem : Nat) :
    iterPhases (rem + 1) = "critique" :: "improvement" :: iterPhases rem := rfl

theorem iterPhases_length (rem : Nat) : (iterPhases rem).length = 2 * rem := by
  induction rem with
  | zero => rfl
  | succ n ih => simp [iterPhases_succ, ih]; omega

theorem fullSchedulePhases_length (N : Nat) :
    (fullSchedulePhases N).length = 2 * N + 2 := by
  simp [fullSchedulePhases, iterPhases_length]

theorem mem_iterPhases (s : String) (n : Nat) (h : s ∈ iterPhases n) :
    s = "critique" ∨ s = "improvement" := by
  induction n with
  | zero => simp [iterPhases] at h
  | succ m ih =>
    rw [iterPhases_succ] at h
    simp only [List.mem_cons] at h
    rcases h with h | h | h
    · exact Or.inl h
    · exact Or.inr h
    · exact ih h

/-- Every generation attempt in `tr` succeeded, the first one carrying call
index `k`. -/
def attemptsOkFrom (st : LLMState) (oracle : Gen) : Nat → List TraceEntry → Prop
  | _, [] => True
  | k, e :: rest =>
    (genCall st oracle k e.model e.prompt).isOk = true ∧
      attemptsOkFrom st oracle (k + 1) rest

theorem attemptsOkFrom_append (st : LLMState) (oracle : Gen)
    (xs ys : List TraceEntry) : ∀ k,
    attemptsOkFrom st oracle k (xs ++ ys) ↔
      (attemptsOkFrom st oracle k xs ∧
        attemptsOkFrom st oracle (k + xs.length) ys) := by
  induction xs with
  | nil =>
    intro k
    simp [attemptsOkFrom]
  | cons e rest ih =>
    intro k
    have harith : k + (e :: rest).length = (k + 1) + rest.length := by
      simp [List.length_cons]
      omega
    simp only [List.cons_append, attemptsOkFrom, List.append_eq, ih (k + 1),
      harith, and_assoc]

theorem attemptsOkFrom_all (st : LLMState) (oracle : Gen)
    (l : List TraceEntry) : ∀ k, attemptsOkFrom st oracle k l →
    ∀ idx (h : idx < l.length),
      (genCall st oracle (k + idx) (l.get ⟨idx, h⟩).model
        (l.get ⟨idx, h⟩).prompt).isOk = true := by
  induction l with
  | nil =>
    intro k _ idx h
    simp at h
  | cons e rest ih =>
    intro k hok idx h
    rcases idx with _ | idx
    · simpa using hok.1
    · have hlt : idx < rest.length := by simpa using h
      have := ih (k + 1) hok.2 idx hlt
      have harith : k + (idx + 1) = (k + 1) + idx := by omega
      rw [harith]
      simpa using this

/-- Shape of the ghost trace grown by part of a run: `new` is appended to
`tr`; it splits into a successful part `okNew` and at most one trailing
failed attempt. -/
def runShape (st : LLMState) (oracle : Gen)
    (tr new okNew restNew : List TraceEntry) : Prop :=
  new = okNew ++ restNew ∧
  attemptsOkFrom st oracle tr.length okNew ∧
  (restNew = [] ∨ ∃ e, restNew = [e] ∧
    (genCall st oracle (tr.length + okNew.length) e.model e.prompt).isOk = false)

theorem runShape_nil (st : LLMState) (oracle : Gen) (tr : List TraceEntry) :
    runShape st oracle tr [] [] [] :=
  ⟨rfl, trivial, Or.inl rfl⟩

theorem runShape_fail1 (st : LLMState) (oracle : Gen) (tr : List TraceEntry)
    (a : TraceEntry)
    (ha : (genCall st oracle tr.length a.model a.prompt).isOk = false) :
    runShape st oracle tr [a] [] [a] :=
  ⟨rfl, trivial, Or.inr ⟨a, rfl, by simpa using ha⟩⟩

theorem runShape_ok1 (st : LLMState) (oracle : Gen) (tr : List TraceEntry)
    (a : TraceEntry)
    (ha : (genCall st oracle tr.length a.model a.prompt).isOk = true) :
    runShape st oracle tr [a] [a] [] :=
  ⟨rfl, ⟨ha, trivial⟩, Or.inl rfl⟩

theorem runShape_fail2 (st : LLMState) (oracle : Gen) (tr : List TraceEntry)
    (a b : TraceEntry)
    (ha : (genCall st oracle tr.length a.model a.prompt).isOk = true)
    (hb : (genCall st oracle (tr.length + 1) b.model b.prompt).isOk = false) :
    runShape st oracle tr [a, b] [a] [b] :=
  ⟨rfl, ⟨ha, trivial⟩, Or.inr ⟨b, rfl, by simpa using hb⟩⟩

theorem runShape_ok2 (st : LLMState) (oracle : Gen) (tr : List TraceEntry)
    (a b : TraceEntry)
    (ha : (genCall st oracle tr.length a.model a.prompt).isOk = true)
    (hb : (genCall st oracle (tr.length + 1) b.model b.prompt).isOk = true) :
    runShape st oracle tr [a, b] [a, b] [] :=
  ⟨rfl, ⟨ha, hb, trivial⟩, Or.inl rfl⟩

/-- Composing an all-successful front part with a continuation. -/
theorem runShape_append (st : LLMState) (oracle : Gen)
    (tr new1 new2 ok2 rest2 : List TraceEntry)
    (h1 : runShape st oracle tr new1 new1 [])
    (h2 : runShape st oracle (tr ++ new1) new2 ok2 rest2) :
    runShape st oracle tr (new1 ++ new2) (new1 ++ ok2) rest2 := by
  obtain ⟨hsplit1, hok1, _⟩ := h1
  obtain ⟨hsplit2, hok2, hrest2⟩ := h2
  refine ⟨by rw [hsplit2, List.append_assoc], ?_, ?_⟩
  · rw [attemptsOkFrom_append]
    refine ⟨hok1, ?_⟩
    simpa [List.length_append] using hok2
  · rcases hrest2 with h | ⟨e, he, hf⟩
    · exact Or.inl h
    · refine Or.inr ⟨e, he, ?_⟩
      simpa [List.length_append, Nat.add_assoc] using hf

theorem branch2_fail (st : LLMState) (oracle : Gen) (i : Nat) (ls : LoopSt)
    (tr : List TraceEntry) (a b : TraceEntry) (E : LoopOut)
    (hEtr : E.trace = (tr ++ [a]) ++ [b])
    (hEerr : E.error.isSome = true)
    (ha : (genCall st oracle tr.length a.model a.prompt).isOk = true)
    (hb : (genCall st oracle (tr.length + 1) b.model b.prompt).isOk = false)
    (hpa : a.phase = "critique") (hpb : b.phase = "improvement") :
    ∃ new okNew restNew,
      E.trace = tr ++ new ∧
      runShape st oracle tr new okNew restNew ∧
      (new.map TraceEntry.phase) <+: ["critique", "improvement"] ∧
      (E.error = none →
        restNew = [] ∧
        new.map TraceEntry.phase = ["critique", "improvement"] ∧
        E.ls.session.completedIterations = i ∧
        sumUsage E.ls.session.modelUsageStats =
          sumUsage ls.session.modelUsageStats + new.length) := by
  refine ⟨[a] ++ [b], [a], [b], by rw [hEtr, List.append_assoc],
    runShape_fail2 st oracle tr a b ha hb, ⟨[], by simp [hpa, hpb]⟩, ?_⟩
  intro h
  rw [h] at hEerr
  simp at hEerr

theorem branch2_ok (st : LLMState) (oracle : Gen) (i : Nat) (ls : LoopSt)
    (tr : List TraceEntry) (a b : TraceEntry) (E : LoopOut)
    (hEtr : E.trace = (tr ++ [a]) ++ [b])
    (ha : (genCall st oracle tr.length a.model a.prompt).isOk = true)
    (hb : (genCall st oracle (tr.length + 1) b.model b.prompt).isOk = true)
    (hpa : a.phase = "critique") (hpb : b.phase = "improvement")
    (hcomp : E.ls.session.completedIterations = i)
    (hsum : sumUsage E.ls.session.modelUsageStats =
      sumUsage ls.session.modelUsageStats + 2) :
    ∃ new okNew restNew,
      E.trace = tr ++ new ∧
      runShape st oracle tr new okNew restNew ∧
      (new.map TraceEntry.phase) <+: ["critique", "improvement"] ∧
      (E.error = none →
        restNew = [] ∧
        new.map TraceEntry.phase = ["critique", "improvement"] ∧
        E.ls.session.completedIterations = i ∧
        sumUsage E.ls.session.modelUsageStats =
          sumUsage ls.session.modelUsageStats + new.length) := by
  refine ⟨[a] ++ [b], [a] ++ [b], [], by rw [hEtr, List.append_assoc],
    runShape_ok2 st oracle tr a b ha hb, ⟨[], by simp [hpa, hpb]⟩, ?_⟩
  intro _
  exact ⟨rfl, by simp [hpa, hpb], hcomp, by simpa using hsum⟩

theorem runShape_snoc_fail (st : LLMState) (oracle : Gen)
    (front : List TraceEntry) (b : TraceEntry)
    (hfront : runShape st oracle [] front front [])
    (hb : (genCall st oracle front.length b.model b.prompt).isOk = false) :
    runShape st oracle [] (front ++ [b]) front [b] := by
  refine ⟨rfl, by simpa using hfront.2.1, Or.inr ⟨b, rfl, ?_⟩⟩
  simpa using hb

theorem runShape_snoc_ok (st : LLMState) (oracle : Gen)
    (front : List TraceEntry) (b : TraceEntry)
    (hfront : runShape st oracle [] front front [])
    (hb : (genCall st oracle front.length b.model b.prompt).isOk = true) :
    runShape st oracle [] (front ++ [b]) (front ++ [b]) [] := by
  refine ⟨(List.append_nil _).symm, ?_, Or.inl rfl⟩
  rw [attemptsOkFrom_append]
  refine ⟨by simpa using hfront.2.1, ?_⟩
  simp only [attemptsOkFrom, List.length_nil, Nat.zero_add]
  exact ⟨hb, trivial⟩

theorem iterOnce_spec (st : LLMState) (o : OrchState) (oracle : Gen) (i : Nat)
    (ls : LoopSt) (tr : List TraceEntry) :
    ∃ new okNew restNew,
      (iterOnce st o oracle i ls tr).trace = tr ++ new ∧
      runShape st oracle tr new okNew restNew ∧
      (new.map TraceEntry.phase) <+: ["critique", "improvement"] ∧
      ((iterOnce st o oracle i ls tr).error = none →
        restNew = [] ∧
        new.map TraceEntry.phase = ["critique", "improvement"] ∧
        (iterOnce st o oracle i ls tr).ls.session.completedIterations = i ∧
        sumUsage (iterOnce st o oracle i ls tr).ls.session.modelUsageStats =
          sumUsage ls.session.modelUsageStats + new.length) := by
  unfold iterOnce
  simp only [attemptGen]
  split
  · -- critique-model selection threw (unknown strategy)
    refine ⟨[], [], [], by simp, runShape_nil st oracle tr, List.nil_prefix,
      ?_⟩
    intro h
    simp at h
  · -- critique model selected
    split
    · -- critique generation call failed
      rename_i e heq
      simp only [Prod.mk.injEq] at heq
      obtain ⟨hg, htr⟩ := heq
      subst htr
      refine ⟨_, _, _, rfl,
        runShape_fail1 st oracle tr _ (by dsimp only; rw [hg]; rfl),
        ⟨["improvement"], rfl⟩, ?_⟩
      intro h
      simp at h
    · -- critique succeeded
      rename_i critique heq1
      simp only [Prod.mk.injEq] at heq1
      obtain ⟨hg1, htr1⟩ := heq1
      subst htr1
      split
      · -- improvement-model selection threw
        refine ⟨_, _, _, rfl,
          runShape_ok1 st oracle tr _ (by dsimp only; rw [hg1]; rfl),
          ⟨["improvement"], rfl⟩, ?_⟩
        intro h
        simp at h
      · -- improvement model selected
        split
        · -- improvement generation call failed
          rename_i e heq2
          simp only [Prod.mk.injEq] at heq2
          obtain ⟨hg2, htr2⟩ := heq2
          subst htr2
          simp only [List.length_append, List.length_cons, List.length_nil]
            at hg2
          exact branch2_fail st oracle i ls tr _ _ _ rfl rfl
            (by dsimp only; rw [hg1]; rfl)
            (by dsimp only; rw [hg2]; rfl) rfl rfl
        · -- improvement succeeded: the iteration completes
          rename_i improved heq2
          simp only [Prod.mk.injEq] at heq2
          obtain ⟨hg2, htr2⟩ := heq2
          subst htr2
          simp only [List.length_append, List.length_cons, List.length_nil]
            at hg2
          refine branch2_ok st oracle i ls tr _ _ _ rfl
            (by dsimp only; rw [hg1]; rfl)
            (by dsimp only; rw [hg2]; rfl) rfl rfl rfl ?_
          obtain ⟨ms1, he1, hs1⟩ := trackModelUsage_spec
            { ls.session with currentIteration := i } _ "critique"
          obtain ⟨ms2, he2, hs2⟩ := trackModelUsage_spec
            (trackModelUsage { ls.session with currentIteration := i } _
              "critique") _ "improvement"
          dsimp only
          rw [he2]
          dsimp only
          rw [he1] at hs2
          dsimp only at hs1 hs2
          omega

theorem iterLoop_spec (st : LLMState) (o : OrchState) (oracle : Gen) :
    ∀ (rem i : Nat) (ls : LoopSt) (tr : List TraceEntry),
    ∃ new okNew restNew,
      (iterLoop st o oracle rem i ls tr).trace = tr ++ new ∧
      runShape st oracle tr new okNew restNew ∧
      (new.map TraceEntry.phase) <+: iterPhases rem ∧
      ((iterLoop st o oracle rem i ls tr).error = none →
        restNew = [] ∧
        new.map TraceEntry.phase = iterPhases rem ∧
        (iterLoop st o oracle rem i ls tr).ls.session.completedIterations =
          (if rem = 0 then ls.session.completedIterations else i + rem - 1) ∧
        sumUsage
            (iterLoop st o oracle rem i ls tr).ls.session.modelUsageStats =
          sumUsage ls.session.modelUsageStats + new.length) := by
  intro rem
  induction rem with
  | zero =>
    intro i ls tr
    refine ⟨[], [], [], by simp [iterLoop], runShape_nil st oracle tr,
      List.nil_prefix, ?_⟩
    intro _
    refine ⟨rfl, rfl, by simp [iterLoop], by simp [iterLoop]⟩
  | succ n ih =>
    intro i ls tr
    obtain ⟨new1, ok1, rest1, htr1, hshape1, hpre1, hsucc1⟩ :=
      iterOnce_spec st o oracle i ls tr
    rcases hE : iterOnce st o oracle i ls tr with ⟨err, ls2, tr2⟩
    rw [hE] at htr1 hsucc1
    dsimp only at htr1 hsucc1
    subst htr1
    rcases err with _ | e
    · -- the iteration succeeded; the loop continues
      obtain ⟨hrest1, hph1, hcomp1, hsum1⟩ := hsucc1 rfl
      subst hrest1
      have hok1 : new1 = ok1 := by simpa using hshape1.1
      subst hok1
      have hloop : iterLoop st o oracle (n + 1) i ls tr =
          iterLoop st o oracle n (i + 1) ls2 (tr ++ new1) := by
        simp only [iterLoop]
        rw [hE]
      obtain ⟨new2, ok2, rest2, htr2, hshape2, hpre2, hsucc2⟩ :=
        ih (i + 1) ls2 (tr ++ new1)
      refine ⟨new1 ++ new2, new1 ++ ok2, rest2, ?_, ?_, ?_, ?_⟩
      · rw [hloop, htr2, List.append_assoc]
      · exact runShape_append st oracle tr new1 new2 ok2 rest2 hshape1 hshape2
      · obtain ⟨t2, ht2⟩ := hpre2
        refine ⟨t2, ?_⟩
        rw [iterPhases_succ]
        simp only [List.map_append, hph1, List.cons_append, List.nil_append,
          List.append_assoc]
        rw [ht2]
      · intro hdone
        rw [hloop] at hdone ⊢
        obtain ⟨hrest2, hph2, hcomp2, hsum2⟩ := hsucc2 hdone
        refine ⟨hrest2, ?_, ?_, ?_⟩
        · rw [iterPhases_succ]
          simp only [List.map_append, hph1, hph2, List.cons_append,
            List.nil_append]
        · rcases n with _ | m
          · simp only [if_pos rfl] at hcomp2
            rw [hcomp2, hcomp1]
            simp
          · rw [hcomp2]
            have h1 : ¬ (m + 1 = 0) := by omega
            have h2 : ¬ (m + 1 + 1 = 0) := by omega
            rw [if_neg h1, if_neg h2]
            omega
        · rw [hsum2, hsum1]
          simp only [List.length_append]
          omega
    · -- the iteration threw: the loop stops here
      have hloop : iterLoop st o oracle (n + 1) i ls tr =
          ⟨some e, ls2, tr ++ new1⟩ := by
        simp only [iterLoop]
        rw [hE]
      refine ⟨new1, ok1, rest1, by rw [hloop], hshape1, ?_, ?_⟩
      · exact hpre1.trans ⟨iterPhases n, by simp [iterPhases_succ]⟩
      · intro hdone
        rw [hloop] at hdone
        simp at hdone

theorem exec_branch (st : LLMState) (oracle : Gen) (session : Session)
    (traceV : List TraceEntry) (resultV : Except String RunResult)
    (sessV : Session) (new okNew restNew : List TraceEntry)
    (htr : traceV = new)
    (hshape : runShape st oracle [] new okNew restNew)
    (hpre : (new.map TraceEntry.phase) <+:
      fullSchedulePhases session.targetIterations)
    (hhead : new.head? = some ⟨session.models.primaryModel,
      jsStr session.refinedPrompt, "initial_generation"⟩)
    (hsucc : resultV.isOk = true →
      restNew = [] ∧
      new.map TraceEntry.phase = fullSchedulePhases session.targetIterations ∧
      sessV.completedIterations =
        (if session.targetIterations = 0 then session.completedIterations
          else session.targetIterations) ∧
      sumUsage sessV.modelUsageStats =
        sumUsage session.modelUsageStats + new.length ∧
      (∀ r, resultV = Except.ok r →
        r.completedIterations = sessV.completedIterations ∧
        r.modelUsageStats = sessV.modelUsageStats)) :
    ∃ new okNew restNew,
      traceV = new ∧
      runShape st oracle [] new okNew restNew ∧
      (new.map TraceEntry.phase) <+:
        fullSchedulePhases session.targetIterations ∧
      new.head? = some ⟨session.models.primaryModel,
        jsStr session.refinedPrompt, "initial_generation"⟩ ∧
      (resultV.isOk = true →
        restNew = [] ∧
        new.map TraceEntry.phase =
          fullSchedulePhases session.targetIterations ∧
        sessV.completedIterations =
          (if session.targetIterations = 0 then session.completedIterations
            else session.targetIterations) ∧
        sumUsage sessV.modelUsageStats =
          sumUsage session.modelUsageStats + new.length ∧
        (∀ r, resultV = Except.ok r →
          r.completedIterations = sessV.completedIterations ∧
          r.modelUsageStats = sessV.modelUsageStats)) :=
  ⟨new, okNew, restNew, htr, hshape, hpre, hhead, hsucc⟩

theorem exec_spec (st : LLMState) (o : OrchState) (oracle : Gen)
    (session : Session) :
    ∃ new okNew restNew,
      (executeCollaborativeProcess st o oracle session).trace = new ∧
      runShape st oracle [] new okNew restNew ∧
      (new.map TraceEntry.phase) <+:
        fullSchedulePhases session.targetIterations ∧
      new.head? = some ⟨session.models.primaryModel,
        jsStr session.refinedPrompt, "initial_generation"⟩ ∧
      ((executeCollaborativeProcess st o oracle session).result.isOk = true →
        restNew = [] ∧
        new.map TraceEntry.phase =
          fullSchedulePhases session.targetIterations ∧
        (executeCollaborativeProcess st o oracle
            session).session.completedIterations =
          (if session.targetIterations = 0 then session.completedIterations
            else session.targetIterations) ∧
        sumUsage (executeCollaborativeProcess st o oracle
            session).session.modelUsageStats =
          sumUsage session.modelUsageStats + new.length ∧
        (∀ r, (executeCollaborativeProcess st o oracle session).result =
            Except.ok r →
          r.completedIterations = (executeCollaborativeProcess st o oracle
            session).session.completedIterations ∧
          r.modelUsageStats = (executeCollaborativeProcess st o oracle
            session).session.modelUsageStats)) := by
  obtain ⟨ms0, he0, hs0⟩ :=
    trackModelUsage_spec session session.models.primaryModel
      "initial_generation"
  unfold executeCollaborativeProcess
  simp only [attemptGen]
  split
  · -- the initial generation call failed
    rename_i e heq
    simp only [Prod.mk.injEq] at heq
    obtain ⟨hg0, htr0⟩ := heq
    subst htr0
    refine ⟨_, _, _, rfl,
      runShape_fail1 st oracle [] _ (by dsimp only; rw [hg0]; rfl),
      ⟨iterPhases session.targetIterations ++ ["final_review"],
        by simp [fullSchedulePhases]⟩, by simp, ?_⟩
    intro h
    exact Bool.noConfusion h
  · -- initial generation succeeded
    rename_i resp0 trv heq
    simp only [Prod.mk.injEq] at heq
    obtain ⟨hg0, htr0⟩ := heq
    subst htr0
    rw [he0]
    obtain ⟨new2, ok2, rest2, htr2, hshape2, hpre2, hsucc2⟩ :=
      iterLoop_spec st o oracle
        ({ session with modelUsageStats := ms0 }).targetIterations 1
        ⟨{ session with modelUsageStats := ms0 }, resp0,
          [⟨0, ({ session with modelUsageStats := ms0 }).models.primaryModel,
            "initial_generation", jsStr session.refinedPrompt, resp0⟩]⟩
        ([] ++ [⟨session.models.primaryModel, jsStr session.refinedPrompt,
          "initial_generation"⟩])
    rcases hL : iterLoop st o oracle
        ({ session with modelUsageStats := ms0 }).targetIterations 1
        ⟨{ session with modelUsageStats := ms0 }, resp0,
          [⟨0, ({ session with modelUsageStats := ms0 }).models.primaryModel,
            "initial_generation", jsStr session.refinedPrompt, resp0⟩]⟩
        ([] ++ [⟨session.models.primaryModel, jsStr session.refinedPrompt,
          "initial_generation"⟩]) with ⟨errL, lsL, trL⟩
    rw [hL] at htr2 hsucc2
    try dsimp only at htr2 hsucc2
    subst htr2
    try dsimp only at hpre2
    rw [hL]
    try dsimp only
    have hshInit : runShape st oracle []
        [⟨session.models.primaryModel, jsStr session.refinedPrompt,
          "initial_generation"⟩]
        [⟨session.models.primaryModel, jsStr session.refinedPrompt,
          "initial_generation"⟩] [] :=
      runShape_ok1 st oracle []
        ⟨session.models.primaryModel, jsStr session.refinedPrompt,
          "initial_generation"⟩ (by dsimp only; rw [hg0]; rfl)
    rcases errL with _ | e
    · -- the iteration loop completed; run the final review
      dsimp only
      obtain ⟨hrest2, hph2, hcomp2, hsum2⟩ := hsucc2 rfl
      try dsimp only at hph2 hcomp2 hsum2
      subst hrest2
      have hok2 : new2 = ok2 := by simpa using hshape2.1
      subst hok2
      obtain ⟨msF, heF, hsF⟩ := trackModelUsage_spec lsL.session
        (jsStr (jsOrOpt lsL.session.finalReviewModel
          (getBestFinalReviewModel st))) "final_review"
      split
      · -- the final-review call failed
        rename_i e2 trv2 heq2
        simp only [Prod.mk.injEq] at heq2
        obtain ⟨hgf, htrf⟩ := heq2
        subst htrf
        dsimp only
        have hshFront := runShape_append st oracle [] _ _ _ _ hshInit hshape2
        exact exec_branch st oracle session _ _ _ _ _ _ rfl
          (runShape_snoc_fail st oracle _ _ hshFront
            (by dsimp only
                simp only [List.length_append, List.length_cons,
                  List.length_nil] at hgf ⊢
                rw [hgf]
                rfl))
          ⟨[], by simp [fullSchedulePhases, hph2]⟩ (by simp)
          (fun h => Bool.noConfusion h)
      · -- the final-review call succeeded
        rename_i ffin trv2 heq2
        simp only [Prod.mk.injEq] at heq2
        obtain ⟨hgf, htrf⟩ := heq2
        subst htrf
        dsimp only
        rw [heF]
        have hshFront := runShape_append st oracle [] _ _ _ _ hshInit hshape2
        refine exec_branch st oracle session _ _ _ _ _ _ rfl
          (runShape_snoc_ok st oracle _ _ hshFront
            (by dsimp only
                simp only [List.length_append, List.length_cons,
                  List.length_nil] at hgf ⊢
                rw [hgf]
                rfl))
          ⟨[], by simp [fullSchedulePhases, hph2]⟩ (by simp) ?_
        intro _
        refine ⟨rfl, by simp [fullSchedulePhases, hph2], ?_, ?_, ?_⟩
        · try dsimp only
          rw [hcomp2]
          by_cases hN : session.targetIterations = 0
          · simp [hN]
          · rw [if_neg hN, if_neg hN]
            omega
        · try dsimp only
          rw [hsF, hsum2]
          try dsimp only
          rw [hs0]
          simp only [List.length_append, List.length_cons, List.length_nil]
          omega
        · intro r hr
          try dsimp only at hr
          cases hr
          exact ⟨rfl, rfl⟩
    · -- the iteration loop aborted with an error
      dsimp only
      refine exec_branch st oracle session _ _ _ _ _ _ rfl
        (runShape_append st oracle [] _ _ _ _ hshInit hshape2) ?_ (by simp) ?_
      · obtain ⟨t2, ht2⟩ := hpre2.trans
          (List.prefix_append (iterPhases session.targetIterations)
            ["final_review"])
        refine ⟨t2, ?_⟩
        simp only [List.map_append, List.append_assoc, List.nil_append,
          List.map_cons, List.map_nil, List.cons_append]
        rw [ht2]
        rfl
      · intro h
        exact Bool.noConfusion h

theorem genCall_fails_at (st : LLMState) (oracle : Gen) (j : Nat)
    (hfail : ∀ m p, oracle j m p = none) :
    ∀ m p, (genCall st oracle j m p).isOk = false := by
  intro m p
  unfold genCall
  cases hgr : generateResponse st m p with
  | err msg => rfl
  | call a b c d =>
    dsimp only
    rw [hfail m p]
    rfl

theorem final_not_mem (N : Nat) (l : List String)
    (hpre : l <+: fullSchedulePhases N) (hlen : l.length < 2 * N + 2) :
    "final_review" ∉ l := by
  intro hmem
  have hfull : fullSchedulePhases N =
      ("initial_generation" :: iterPhases N) ++ ["final_review"] := by
    simp [fullSchedulePhases]
  have hlen2 : l.length ≤ ("initial_generation" :: iterPhases N).length := by
    simp [List.length_cons, iterPhases_length]
    omega
  have hp1 : ("initial_generation" :: iterPhases N) <+: fullSchedulePhases N := by
    rw [hfull]
    exact List.prefix_append _ _
  have hpre2 : l <+: ("initial_generation" :: iterPhases N) :=
    List.prefix_of_prefix_length_le hpre hp1 hlen2
  have hmem2 := hpre2.subset hmem
  simp only [List.mem_cons] at hmem2
  rcases hmem2 with h | h
  · exact absurd h (by decide)
  · rcases mem_iterPhases _ _ h with h | h <;> exact absurd h (by decide)

theorem startCollabGen_failure (st : LLMState) (o : OrchState) (oracle : Gen)
    (sessions : List (String × Session)) (sessionId : String) (sess : Session)
    (h : alGet sessions sessionId = some sess)
    (hfail : (executeCollaborativeProcess st o oracle sess).result.isOk
      = false) :
    ∃ e, (startCollaborativeGeneration st o oracle sessions
      sessionId).response = StartResponse.failure e := by
  unfold startCollaborativeGeneration
  rw [h]
  dsimp only
  cases hsteps : generateProcessSteps o sess with
  | error e => exact ⟨e, rfl⟩
  | ok steps =>
    dsimp only
    cases hres : (executeCollaborativeProcess st o oracle sess).result with
    | error e => exact ⟨e, rfl⟩
    | ok r =>
      rw [hres] at hfail
      exact Bool.noConfusion hfail

/-- C1: a successful pipeline run over a session with `refinedPrompt` set and
`targetIterations = N ≥ 1` performs exactly `1 + 2N + 1` generation calls —
the initial generation with the primary model, then for each iteration one
critique call followed by one improvement call, then one final review — and
the result's `completedIterations` equals `N`. -/
theorem claim_C1 (st : LLMState) (o : OrchState) (oracle : Gen)
    (session : Session)
    (hrefined : session.refinedPrompt.isSome = true)
    (hN : 1 ≤ session.targetIterations)
    (hok : (executeCollaborativeProcess st o oracle session).result.isOk
      = true) :
    (executeCollaborativeProcess st o oracle session).trace.map
        TraceEntry.phase = fullSchedulePhases session.targetIterations ∧
    (executeCollaborativeProcess st o oracle session).trace.length =
      2 * session.targetIterations + 2 ∧
    (executeCollaborativeProcess st o oracle session).trace.head? =
      some ⟨session.models.primaryModel, jsStr session.refinedPrompt,
        "initial_generation"⟩ ∧
    (∀ r, (executeCollaborativeProcess st o oracle session).result =
        Except.ok r →
      r.completedIterations = session.targetIterations) := by
  obtain ⟨new, okN, restN, htr, hshape, hpre, hhead, hsucc⟩ :=
    exec_spec st o oracle session
  obtain ⟨hrest, hph, hcomp, hsum, hr⟩ := hsucc hok
  rw [htr]
  have hlen : new.length = 2 * session.targetIterations + 2 := by
    have := congrArg List.length hph
    simpa [fullSchedulePhases_length] using this
  refine ⟨hph, hlen, hhead, ?_⟩
  intro r hrr
  rw [(hr r hrr).1, hcomp, if_neg (by omega)]

/-- C2: if the provider fails at call index `j` and the pipeline indeed made
a `j`-th call, the pipeline aborts: the run fails, the trace stops right at
the failed call (`j + 1` attempts, a prefix of the full schedule, with no
final review after a failed iteration call), the session is removed from the
active mapping, and the caller receives an error result. -/
theorem claim_C2 (st : LLMState) (o : OrchState) (oracle : Gen)
    (sessions : List (String × Session)) (sessionId : String)
    (session : Session) (j : Nat)
    (hs : alGet sessions sessionId = some session)
    (hfail : ∀ m p, oracle j m p = none)
    (hmade : j < (executeCollaborativeProcess st o oracle
      session).trace.length) :
    (executeCollaborativeProcess st o oracle session).result.isOk = false ∧
    (executeCollaborativeProcess st o oracle session).trace.length = j + 1 ∧
    ((executeCollaborativeProcess st o oracle session).trace.map
      TraceEntry.phase) <+: fullSchedulePhases session.targetIterations ∧
    ((executeCollaborativeProcess st o oracle session).trace.length <
        2 * session.targetIterations + 2 →
      "final_review" ∉ (executeCollaborativeProcess st o oracle
        session).trace.map TraceEntry.phase) ∧
    (∃ e, (startCollaborativeGeneration st o oracle sessions
      sessionId).response = StartResponse.failure e) ∧
    alGet (startCollaborativeGeneration st o oracle sessions
      sessionId).sessions sessionId = none := by
  obtain ⟨new, okN, restN, htr, hshape, hpre, hhead, hsucc⟩ :=
    exec_spec st o oracle session
  obtain ⟨hsplit, hokN, hrestN⟩ := hshape
  have hgc := genCall_fails_at st oracle j hfail
  have hokle : okN.length ≤ j := by
    by_contra hcon
    push_neg at hcon
    have := attemptsOkFrom_all st oracle okN 0 (by simpa using hokN) j hcon
    simp only [Nat.zero_add] at this
    rw [hgc _ _] at this
    exact Bool.noConfusion this
  have hlen : (executeCollaborativeProcess st o oracle session).trace.length =
      okN.length + restN.length := by
    rw [htr, hsplit]
    simp [List.length_append]
  have hrlen : restN.length ≤ 1 := by
    rcases hrestN with h | ⟨e, he, _⟩
    · simp [h]
    · simp [he]
  have hnotok :
      (executeCollaborativeProcess st o oracle session).result.isOk = false := by
    rcases hv : (executeCollaborativeProcess st o oracle session).result.isOk
      with _ | _
    · rfl
    · obtain ⟨hrest, _, _, _, _⟩ := hsucc hv
      rw [hrest] at hlen
      simp at hlen
      omega
  have hlenj :
      (executeCollaborativeProcess st o oracle session).trace.length = j + 1 := by
    omega
  refine ⟨hnotok, hlenj, by rw [htr]; exact hpre, ?_, ?_, ?_⟩
  · rw [htr]
    intro hlt
    exact final_not_mem session.targetIterations _ hpre (by simpa using hlt)
  · exact startCollabGen_failure st o oracle sessions sessionId session hs
      hnotok
  · exact startCollabGen_removes st o oracle sessions sessionId session hs

/-- C5: at the end of a successful run of a session that started with empty
usage statistics, the sum over all models of `totalUsage` equals the total
number of generation-service calls made (which is `2N + 2`), and the result
object's `modelUsageStats` mirrors the session's. -/
theorem claim_C5 (st : LLMState) (o : OrchState) (oracle : Gen)
    (session : Session)
    (hstats : session.modelUsageStats = [])
    (hok : (executeCollaborativeProcess st o oracle session).result.isOk
      = true) :
    sumUsage (executeCollaborativeProcess st o oracle
        session).session.modelUsageStats =
      (executeCollaborativeProcess st o oracle session).trace.length ∧
    (executeCollaborativeProcess st o oracle session).trace.length =
      2 * session.targetIterations + 2 ∧
    (∀ r, (executeCollaborativeProcess st o oracle session).result =
        Except.ok r →
      r.modelUsageStats = (executeCollaborativeProcess st o oracle
        session).session.modelUsageStats) := by
  obtain ⟨new, okN, restN, htr, hshape, hpre, hhead, hsucc⟩ :=
    exec_spec st o oracle session
  obtain ⟨hrest, hph, hcomp, hsum, hr⟩ := hsucc hok
  have hlen : new.length = 2 * session.targetIterations + 2 := by
    have := congrArg List.length hph
    simpa [fullSchedulePhases_length] using this
  rw [htr]
  refine ⟨?_, hlen, fun r hrr => (hr r hrr).2⟩
  rw [hsum, hstats]
  simp [sumUsage]

/-- Concrete pipeline inputs for the witnesses: both providers configured,
the specialization strategy, two target iterations, an always-succeeding
oracle and one failing at the third call (index 2, iteration 1's
improvement). -/
def wLLM : LLMState := ⟨true, true⟩

def wOrch : OrchState := ⟨wLLM, none⟩

def wOracle : Gen := fun _ _ _ => some "ok"

def wOracleFail : Gen := fun k _ _ => if k = 2 then none else some "ok"

def wSession : Session :=
  { id := "s1", originalPrompt := "orig", refinedPrompt := some "refined",
    models := ⟨"gpt-4o", "claude-3-5-sonnet", some "claude-sonnet-4",
      some "model_specialization"⟩,
    targetIterations := 2, currentIteration := 0, completedIterations := 0,
    handoffStrategy := "model_specialization", modelUsageStats := [],
    finalReviewModel := some "claude-sonnet-4",
    pendingClarifications := none }

/-- Witness for C1: a concrete successful two-iteration run makes
`2 * 2 + 2 = 6` generation calls. -/
theorem claim_C1_witness :
    (executeCollaborativeProcess wLLM wOrch wOracle wSession).trace.length =
      2 * wSession.targetIterations + 2 :=
  (claim_C1 wLLM wOrch wOracle wSession rfl (by decide) rfl).2.1

/-- Witness for C2: with the oracle failing at call index 2, the concrete
run stops after 3 attempts and the session is removed from the mapping. -/
theorem claim_C2_witness :
    (executeCollaborativeProcess wLLM wOrch wOracleFail wSession).trace.length
      = 2 + 1 ∧
    alGet (startCollaborativeGeneration wLLM wOrch wOracleFail
      [("s1", wSession)] "s1").sessions "s1" = none :=
  ⟨(claim_C2 wLLM wOrch wOracleFail [("s1", wSession)] "s1" wSession 2 rfl
      (fun m p => rfl) (by decide)).2.1,
   (claim_C2 wLLM wOrch wOracleFail [("s1", wSession)] "s1" wSession 2 rfl
      (fun m p => rfl) (by decide)).2.2.2.2.2⟩

/-- Witness for C5: in the concrete successful run the usage totals sum to
the number of generation calls. -/
theorem claim_C5_witness :
    sumUsage (executeCollaborativeProcess wLLM wOrch wOracle
        wSession).session.modelUsageStats =
      (executeCollaborativeProcess wLLM wOrch wOracle wSession).trace.length :=
  (claim_C5 wLLM wOrch wOracle wSession rfl rfl).1
